import Mathlib

/-!
# GemSwap: the grid, swap legality and the board scan

A shallow embedding of the puzzle logic of `GemSwap/main.cpp` (classes `Mesh`,
`Object` and `Scene`), followed by theorems about it.

Conventions of the embedding.

* `Object* grid[10][10]` is a table of addresses. Addresses are natural numbers,
  the store `heap` maps an address to the `Object` that lives there, and
  `grid i j` is the address held by slot `[i][j]`. Every access `grid[i][j]`
  goes through `Scene.slot`, which fails (`none`) when an index is outside
  `[0,9]`; an operation that would read or write outside the array therefore
  returns `none`.
* C++ `int` indices are `Int`, so that `a-1` and `a-2` may become negative as
  they do in the source.
* `float` fields are only stored and copied by the operations modelled here;
  they are carried as rationals.
-/

namespace GemSwap

/-! ## Data model -/

/-- Two-component vector `vec2`. -/
structure vec2 where
  x : Rat
  y : Rat
deriving DecidableEq

/-- Class `Mesh`: only `objectID` matters to the puzzle logic; it is set by the
constructor and never written again. -/
structure Mesh where
  objectID : Int
deriving DecidableEq

/-- Method `Mesh::getID`. -/
def Mesh.getID (m : Mesh) : Int := m.objectID

/-- Class `Object` (the `shader` pointer is left out: no modelled operation
reads it). -/
structure Object where
  mesh : Mesh
  position : vec2
  scaling : vec2
  orientation : Rat
  rotation : Rat
  scale : Rat
deriving DecidableEq

/-- Method `Object::GetPosition`. -/
def Object.GetPosition (o : Object) : vec2 := o.position

/-- Method `Object::SetPosition`. -/
def Object.SetPosition (o : Object) (pos : vec2) : Object := { o with position := pos }

/-- Method `Object::getID`: the id of the mesh. -/
def Object.getID (o : Object) : Int := o.mesh.getID

/-- Method `Object::SetRotation`. -/
def Object.SetRotation (o : Object) (val : Rat) : Object := { o with rotation := val }

/-- Method `Object::SetScale`. -/
def Object.SetScale (o : Object) (s : Rat) : Object := { o with scale := s }

/-- Class `Scene`: the store of objects, the grid of addresses, the pending
selection `x`, `y` and the flag `activateThree`. -/
structure Scene where
  heap : Nat → Object
  grid : Int → Int → Nat
  x : Int
  y : Int
  activateThree : Bool

/-- Both indices lie in `[0,9]`. -/
def inGrid (i j : Int) : Prop := 0 ≤ i ∧ i < 10 ∧ 0 ≤ j ∧ j < 10

instance (i j : Int) : Decidable (inGrid i j) := by
  unfold inGrid; exact inferInstance

/-- The access `grid[i][j]`: the address in the slot, or failure outside the array. -/
def Scene.slot (s : Scene) (i j : Int) : Option Nat :=
  if inGrid i j then some (s.grid i j) else none

/-- The object `*grid[i][j]`. -/
def Scene.obj (s : Scene) (i j : Int) : Option Object :=
  (s.slot i j).map s.heap

/-- The call `grid[i][j]->getID()`. -/
def Scene.getID (s : Scene) (i j : Int) : Option Int :=
  (s.obj i j).map Object.getID

/-- The call `grid[i][j]->GetPosition()`. -/
def Scene.GetPosition (s : Scene) (i j : Int) : Option vec2 :=
  (s.obj i j).map Object.GetPosition

/-- A method call `grid[i][j]->f(...)` that writes the object in place. -/
def Scene.call (s : Scene) (i j : Int) (f : Object → Object) : Option Scene :=
  (s.slot i j).map fun p => { s with heap := Function.update s.heap p (f (s.heap p)) }

/-- The assignment `grid[i][j] = p`. -/
def Scene.setSlot (s : Scene) (i j : Int) (p : Nat) : Option Scene :=
  if inGrid i j then
    some { s with grid := fun i' j' => if i' = i ∧ j' = j then p else s.grid i' j' }
  else none

/-! ## Scene::Initialize -/

/-- The object built for grid slot `[j][i]` when `rand() % 6` gave `m`. -/
def newObject (m : Nat) (j i : Nat) : Object :=
  let pos : vec2 := ⟨(2 * (i : Rat) - 9) / 10, (2 * (j : Rat) - 9) / 10⟩
  if m = 2 then ⟨⟨2⟩, pos, ⟨3/50, 3/50⟩, 0, 45, 0⟩
  else if m = 4 then ⟨⟨4⟩, pos, ⟨2/25, 2/25⟩, 0, 0, 0⟩
  else if m = 5 then ⟨⟨5⟩, pos, ⟨3/20, 3/20⟩, 0, 100, 0⟩
  else ⟨⟨(m : Int)⟩, pos, ⟨3/50, 3/50⟩, 0, 0, 0⟩

/-- Method `Scene::Initialize`, restricted to the grid. `rand k` is the value
returned by the `k`-th call of `rand()`; the loops visit slot `[j][i]` at step
`10*j+i`, and the object allocated at that step gets address `10*j+i`. The fields
`x`, `y` start at zero (the scene is a global object) and `activateThree` at
`false`. -/
def Initialize (rand : Nat → Nat) : Scene where
  heap := fun p => newObject (rand p % 6) (p / 10) (p % 10)
  grid := fun j i => (10 * j + i).toNat
  x := 0
  y := 0
  activateThree := false

/-! ## Selection and swap -/

/-- Method `Scene::Select`. -/
def Select (s : Scene) (u v : Int) : Scene := { s with x := u, y := v }

/-- The test `grid[p]->getID() == grid[q]->getID() && grid[q]->getID() == grid[r]->getID()`,
with the short circuit of `&&`. -/
def Scene.same3 (s : Scene) (p q r : Int × Int) : Option Bool := do
  if (← s.getID p.1 p.2) == (← s.getID q.1 q.2) then
    pure ((← s.getID q.1 q.2) == (← s.getID r.1 r.2))
  else
    pure false

/-- One block of `Scene::Legal`, `if (guard) { if (test on p, q, r) return true; }`:
the guard and the three cells whose ids the test compares. -/
structure Block where
  guard : Bool
  p : Int × Int
  q : Int × Int
  r : Int × Int

/-- Run one block: the value says whether the block returned `true`. -/
def Scene.block (s : Scene) (k : Block) : Option Bool :=
  if k.guard then s.same3 k.p k.q k.r else some false

/-- Sequencing of the blocks of `Scene::Legal`: the first block that returns
`true` ends the function; otherwise the following blocks run, and after the last
one the function returns `false`. -/
def firstTrue : List (Option Bool) → Option Bool
  | [] => some false
  | t :: rest =>
    match t with
    | none => none
    | some true => some true
    | some false => firstTrue rest

/-- The twelve blocks of `Scene::Legal(a, b, c, d)` in the order of the source. -/
def blocks (a b c d : Int) : List Block :=
  [ ⟨a+1 < 10 && a+2 < 10, (c, d), (a+1, b), (a+2, b)⟩,
    ⟨a-1 > 0 && a-2 > 0, (c, d), (a-1, b), (a-2, b)⟩,
    ⟨a-1 > 0 && a+1 < 10, (c, d), (a-1, b), (a+1, b)⟩,
    ⟨b+1 < 10 && b+2 < 10, (c, d), (a, b+1), (a, b+2)⟩,
    ⟨b-1 > 0 && b-2 > 0, (c, d), (a, b-1), (a, b-2)⟩,
    ⟨b-1 > 0 && b+1 < 10, (c, d), (a, b-1), (a, b+1)⟩,
    ⟨c+1 < 10 && c+2 < 10, (a, b), (c+1, d), (c+2, d)⟩,
    ⟨c-1 > 0 && c-2 > 0, (a, b), (c-1, d), (c-2, d)⟩,
    ⟨c-1 > 0 && c+1 < 10, (a, b), (c-1, d), (c+1, d)⟩,
    ⟨d+1 < 10 && d+2 < 10, (a, b), (c, d+1), (c, d+2)⟩,
    ⟨d-1 > 0 && d-2 > 0, (a, b), (c, d-1), (c, d-2)⟩,
    ⟨d-1 > 0 && d+1 < 10, (a, b), (c, d-1), (c, d+1)⟩ ]

/-- Method `Scene::Legal`. -/
def Legal (s : Scene) (a b c d : Int) : Option Bool :=
  firstTrue ((blocks a b c d).map s.block)

/-- The body of the `if (Legal(...))` of `Scene::Swap`, for a pending selection
`(x,y)`, a release coordinate `(u,v)` and the two positions read before the test:
each occupant gets the position of the other, then `std::swap` exchanges the two
slots. -/
def commit (s : Scene) (u v x y : Int) (pos1 pos2 : vec2) : Option Scene := do
  let s1 ← s.call u v (Object.SetPosition · pos2)
  let s2 ← s1.call x y (Object.SetPosition · pos1)
  let guv ← s2.slot u v
  let gxy ← s2.slot x y
  let s3 ← s2.setSlot u v gxy
  s3.setSlot x y guv

/-- The exchange step of `Scene::Swap` without the legality test: read the two
positions, then `commit`. -/
def exchange (s : Scene) (u v x y : Int) : Option Scene := do
  let pos1 ← s.GetPosition u v
  let pos2 ← s.GetPosition x y
  commit s u v x y pos1 pos2

/-- Method `Scene::Swap`. `NULL` is the integer zero. -/
def Swap (s : Scene) (u v : Int) : Option Scene := do
  let pos1 ← s.GetPosition u v
  let pos2 ← s.GetPosition s.x s.y
  let s1 ← if (← Legal s s.x s.y u v) then commit s u v s.x s.y pos1 pos2 else pure s
  pure { s1 with x := 0, y := 0, activateThree := true }

/-! ## Bombs and the board scan -/

/-- Method `Scene::Bomb`. -/
def Bomb (s : Scene) (u v : Int) : Option Scene := do
  let s1 ← s.call u v (Object.SetRotation · 270)
  let s2 ← s1.call u v (Object.SetScale · 6)
  pure { s2 with activateThree := true }

/-- Method `Scene::QuakeBye`. `q` is `keyboardState['q']`; `r1`, `r2`, `r3` are the
values of the three calls of `rand()`, which are made only when `q` holds. -/
def QuakeBye (s : Scene) (q : Bool) (r1 r2 r3 : Nat) : Option Scene :=
  if q then
    let i : Int := ((r1 % 10 : Nat) : Int)
    let j : Int := ((r2 % 10 : Nat) : Int)
    let r := r3 % 1000
    if r = 1 then Bomb s i j else pure s
  else pure s

/-- The body of the inner loop of `Scene::ThreeInARow` for the cell `(i,j)`. -/
def scanCell (s : Scene) (i j : Int) : Option Scene := do
  if i-1 > 0 ∧ i+1 < 10 then
    let s1 ← if (← s.same3 (i, j) (i+1, j) (i-1, j)) then
        (do let t1 ← Bomb s i j
            let t2 ← Bomb t1 (i-1) j
            Bomb t2 (i+1) j)
      else pure s
    if j-1 > 0 ∧ j+1 < 10 then
      if (← s1.same3 (i, j) (i, j+1) (i, j-1)) then
        let t1 ← Bomb s1 i j
        let t2 ← Bomb t1 i (j-1)
        Bomb t2 i (j+1)
      else pure s1
    else pure s1
  else pure s

/-- The inner loop `for (int j = 0; j < 10; j++)` of `Scene::ThreeInARow`. -/
def scanRow (s : Scene) (i : Int) : Option Scene :=
  (List.range 10).foldlM (fun t (j : Nat) => scanCell t i (j : Int)) s

/-- Method `Scene::ThreeInARow`. -/
def ThreeInARow (s : Scene) : Option Scene :=
  if s.activateThree then
    (List.range 10).foldlM (fun t (i : Nat) => scanRow t (i : Int)) s
  else pure s

/-! ## Vocabulary of the statements -/

/-- Type id of the occupant of slot `(i,j)`, read without the bounds check. -/
def Scene.tid (s : Scene) (i j : Int) : Int := (s.heap (s.grid i j)).getID

/-- What `Scene::Bomb` leaves of an object: rotation 270 and scale 6. -/
def Object.bombed (o : Object) : Object := (o.SetRotation 270).SetScale 6

/-- The cell at `(i,j)` is in the grid and its occupant has rotation 270 and
scale 6, the state in which `Scene::Bomb` leaves it. -/
def Scene.bombed (s : Scene) (i j : Int) : Prop :=
  match s.obj i j with
  | some o => o.rotation = 270 ∧ o.scale = 6
  | none => False

instance (s : Scene) (i j : Int) : Decidable (s.bombed i j) := by
  unfold Scene.bombed; cases s.obj i j <;> exact inferInstance

/-- The three consecutive cells that start at `(i,j)` and run down a column
(`vertical = true`) or along a row. -/
def line3 (vertical : Bool) (i j : Int) : List (Int × Int) :=
  if vertical then [(i, j), (i+1, j), (i+2, j)] else [(i, j), (i, j+1), (i, j+2)]

/-- The three cells of `line3 vertical i j` are inside the grid and have the same
type id. -/
def Scene.hasRun (s : Scene) (vertical : Bool) (i j : Int) : Prop :=
  ∃ t, ∀ p ∈ line3 vertical i j, s.getID p.1 p.2 = some t

/-- Some three consecutive equal-typed cells of one row or one column include the
cell `(a,b)`. -/
def Scene.runThrough (s : Scene) (a b : Int) : Prop :=
  ∃ vertical i j, s.hasRun vertical i j ∧ (a, b) ∈ line3 vertical i j

/-- Executable form of `Scene.hasRun`. -/
def Scene.hasRunB (s : Scene) (vertical : Bool) (i j : Int) : Bool :=
  match line3 vertical i j with
  | [p, q, r] =>
    (s.getID p.1 p.2).isSome && s.getID p.1 p.2 == s.getID q.1 q.2
      && s.getID q.1 q.2 == s.getID r.1 r.2
  | _ => false

/-- Executable form of `Scene.runThrough`: the six lines through `(a,b)`. -/
def Scene.runThroughB (s : Scene) (a b : Int) : Bool :=
  s.hasRunB true a b || s.hasRunB true (a-1) b || s.hasRunB true (a-2) b
    || s.hasRunB false a b || s.hasRunB false a (b-1) || s.hasRunB false a (b-2)

/-- Value of one block of `Legal` when its reads are inside the grid. -/
def Scene.hit (s : Scene) (k : Block) : Bool :=
  k.guard && decide (s.tid k.p.1 k.p.2 = s.tid k.q.1 k.q.2)
    && decide (s.tid k.q.1 k.q.2 = s.tid k.r.1 k.r.2)

/-- The three cells a block reads are inside the grid. -/
def Block.inside (k : Block) : Prop :=
  inGrid k.p.1 k.p.2 ∧ inGrid k.q.1 k.q.2 ∧ inGrid k.r.1 k.r.2

/-- What `Scene::Swap` does after the exchange: clear the selection (to zero) and
raise `activateThree`. -/
def Scene.released (s : Scene) : Scene := { s with x := 0, y := 0, activateThree := true }

/-- The scene `t` differs from `s` only by bombs: same grid and selection, and each
object is either untouched or is its former self after `Scene::Bomb`. -/
def Scene.bombsFrom (s t : Scene) : Prop :=
  t.grid = s.grid ∧ t.x = s.x ∧ t.y = s.y ∧
    ∀ p, t.heap p = s.heap p ∨ t.heap p = (s.heap p).bombed

/-- The cell `(i,j)` is a centre that the vertical test of `ThreeInARow` accepts:
row in `[2,8]` and the same type id in the cells below and above. -/
def Scene.vCentre (s : Scene) (i j : Int) : Prop :=
  (2 ≤ i ∧ i ≤ 8) ∧ (0 ≤ j ∧ j ≤ 9) ∧
    s.tid i j = s.tid (i+1) j ∧ s.tid (i+1) j = s.tid (i-1) j

/-- The cell `(i,j)` is a centre that the horizontal test of `ThreeInARow` accepts:
row and column in `[2,8]` and the same type id in the cells to the right and left. -/
def Scene.hCentre (s : Scene) (i j : Int) : Prop :=
  (2 ≤ i ∧ i ≤ 8) ∧ (2 ≤ j ∧ j ≤ 8) ∧
    s.tid i j = s.tid i (j+1) ∧ s.tid i (j+1) = s.tid i (j-1)

/-- Distinct slots of the grid hold distinct objects, as after `Initialize`, which
allocates one object per slot. -/
def Scene.distinct (s : Scene) : Prop :=
  ∀ i j i' j', inGrid i j → inGrid i' j' → s.grid i j = s.grid i' j' → i = i' ∧ j = j'

/-- The line `line3 vertical i j` contains the cell `P`, lies inside the grid, and
its two cells other than `P` hold the type id `t`. -/
def Scene.fills (s : Scene) (vertical : Bool) (i j : Int) (P : Int × Int) (t : Int) : Prop :=
  P ∈ line3 vertical i j ∧
    ∀ p ∈ line3 vertical i j, inGrid p.1 p.2 ∧ (p ≠ P → s.tid p.1 p.2 = t)

/-- The cell `n` is another cell of the row or of the column of `P`, at most two
steps away from it. -/
def near (n P : Int × Int) : Prop :=
  n ≠ P ∧ ((n.1 = P.1 ∧ (n.2 - P.2).natAbs ≤ 2) ∨ (n.2 = P.2 ∧ (n.1 - P.1).natAbs ≤ 2))

/-- The ids drawn for the example scenes: `(row + 2*column) % 5` at step
`10*row + column`, so that no three cells in a line share an id, except at the
steps listed in `special`, which draw the id paired with them. -/
def draws (special : List (Nat × Nat)) (k : Nat) : Nat :=
  match special.lookup k with
  | some m => m
  | none => (k / 10 + 2 * (k % 10)) % 5

/-- Example scene: row 4 reads `0 2 4 4 3` from column 3 to column 7. -/
def sceneAdjacent : Scene := Initialize (draws [(46, 4)])

/-- Example scene: column 0 reads `4 4 2 3` from row 0 to row 3, and `(2,1)` holds 4. -/
def sceneEdge : Scene := Initialize (draws [(0, 4), (10, 4)])

/-- Example scene: row 4 reads `0 4 4 4 3` from column 3 to column 7. -/
def sceneTwins : Scene := Initialize (draws [(44, 4), (46, 4)])

/-- Example scene: row 4 reads `0 2 4 2 2` from column 3 to column 7. -/
def sceneScenario : Scene := Initialize (draws [(46, 2), (47, 2)])

/-- Example scene: row 0 reads `4 4 4 1` from column 0 to column 3. -/
def sceneTopRow : Scene := Initialize (draws [(0, 4), (1, 4)])

/-- Example scene: row 4 reads `0 2 4 0 0` from column 3 to column 7, and `(0,0)`
holds 0. -/
def sceneStale : Scene := Initialize (draws [(46, 0), (47, 0)])

/-! ## The scan with the list of its calls of `Bomb` -/

/-- `Scene::Bomb` on a scene paired with the list of the cells bombed so far: the
call is appended to the list. -/
def BombLog (st : Scene × List (Int × Int)) (u v : Int) : Option (Scene × List (Int × Int)) :=
  (Bomb st.1 u v).map fun t => (t, st.2 ++ [(u, v)])

/-- The body of the inner loop of `Scene::ThreeInARow`, as `scanCell`, keeping the
list of the calls of `Bomb`. -/
def scanCellLog (st : Scene × List (Int × Int)) (i j : Int) :
    Option (Scene × List (Int × Int)) := do
  if i-1 > 0 ∧ i+1 < 10 then
    let st1 ← if (← st.1.same3 (i, j) (i+1, j) (i-1, j)) then
        (do let t1 ← BombLog st i j
            let t2 ← BombLog t1 (i-1) j
            BombLog t2 (i+1) j)
      else pure st
    if j-1 > 0 ∧ j+1 < 10 then
      if (← st1.1.same3 (i, j) (i, j+1) (i, j-1)) then
        let t1 ← BombLog st1 i j
        let t2 ← BombLog t1 i (j-1)
        BombLog t2 i (j+1)
      else pure st1
    else pure st1
  else pure st

/-- The inner loop of `Scene::ThreeInARow`, as `scanRow`, keeping the list of the
calls of `Bomb`. -/
def scanRowLog (st : Scene × List (Int × Int)) (i : Int) : Option (Scene × List (Int × Int)) :=
  (List.range 10).foldlM (fun t (j : Nat) => scanCellLog t i (j : Int)) st

/-- Method `Scene::ThreeInARow`, as `ThreeInARow`, returning with the scene the list
of the cells on which it called `Bomb`, in the order of the calls. -/
def ThreeInARowLog (s : Scene) : Option (Scene × List (Int × Int)) :=
  if s.activateThree then
    (List.range 10).foldlM (fun t (i : Nat) => scanRowLog t (i : Int)) (s, [])
  else pure (s, [])

/-- The scene after `Bomb` on the cell `p` of the grid. -/
def Scene.bombAt (s : Scene) (p : Int × Int) : Scene :=
  { s with
    heap := Function.update s.heap (s.grid p.1 p.2) (s.heap (s.grid p.1 p.2)).bombed
    activateThree := true }

instance (s : Scene) (i j : Int) : Decidable (s.vCentre i j) := by
  unfold Scene.vCentre; exact inferInstance

instance (s : Scene) (i j : Int) : Decidable (s.hCentre i j) := by
  unfold Scene.hCentre; exact inferInstance

/-- The cells bombed when the vertical test accepts the centre `(i,j)`. -/
def Scene.vCalls (s : Scene) (i j : Int) : List (Int × Int) :=
  if s.vCentre i j then [(i, j), (i-1, j), (i+1, j)] else []

/-- The cells bombed when the horizontal test accepts the centre `(i,j)`. -/
def Scene.hCalls (s : Scene) (i j : Int) : List (Int × Int) :=
  if s.hCentre i j then [(i, j), (i, j-1), (i, j+1)] else []

/-- The calls of `Bomb` made for the centre `(i,j)`, in order. -/
def Scene.cellCalls (s : Scene) (i j : Int) : List (Int × Int) :=
  s.vCalls i j ++ s.hCalls i j

/-- The calls of `Bomb` made for the centres of row `i`, columns taken from `l`. -/
def Scene.rowCalls (s : Scene) (i : Int) (l : List Nat) : List (Int × Int) :=
  l.flatMap fun j => s.cellCalls i (j : Int)

/-- The calls of `Bomb` made by a whole scan, in order. -/
def Scene.allCalls (s : Scene) (l : List Nat) : List (Int × Int) :=
  l.flatMap fun i => s.rowCalls (i : Int) (List.range 10)

/-! ## Sequences of operations -/

/-- The operations of `Scene` that events can call after `Initialize`: a press
(`Select`), a release (`Swap`), a manual bomb (`Bomb`), and the two calls of the idle
callback (`QuakeBye` with the key state and the values drawn by `rand()`, and
`ThreeInARow`). -/
inductive Op where
  | select (u v : Int)
  | swap (u v : Int)
  | bomb (u v : Int)
  | quakeBye (q : Bool) (r1 r2 r3 : Nat)
  | threeInARow

/-- The coordinates passed by `onMouse` are in `[0,9]`. -/
def Op.inRange : Op → Prop
  | .select u v => inGrid u v
  | .swap u v => inGrid u v
  | .bomb u v => inGrid u v
  | .quakeBye _ _ _ _ => True
  | .threeInARow => True

instance (o : Op) : Decidable o.inRange := by
  cases o <;> unfold Op.inRange <;> exact inferInstance

/-- Run one operation. -/
def Op.run (s : Scene) : Op → Option Scene
  | .select u v => some (Select s u v)
  | .swap u v => Swap s u v
  | .bomb u v => Bomb s u v
  | .quakeBye q r1 r2 r3 => QuakeBye s q r1 r2 r3
  | .threeInARow => ThreeInARow s

/-- Run a sequence of operations, first to last. -/
def runOps (s : Scene) (ops : List Op) : Option Scene :=
  ops.foldlM Op.run s

/-- The multiset of the type ids of the hundred slots of the grid. -/
def Scene.typeIds (s : Scene) : Multiset Int :=
  (Finset.univ : Finset (Fin 10 × Fin 10)).val.map
    fun p => s.tid ((p.1.val : Nat) : Int) ((p.2.val : Nat) : Int)

/-- The scene is in order for the multiset `T`: the pending selection is a cell of the
grid, every slot holds one of the hundred objects allocated by `Initialize` (addresses
`0` to `99`), and the type ids of the slots make up `T`. -/
def Scene.settled (s : Scene) (T : Multiset Int) : Prop :=
  inGrid s.x s.y ∧ (∀ i j, inGrid i j → s.grid i j < 100) ∧ s.typeIds = T

/-! ## Reads inside the grid -/

theorem slot_of_inGrid (s : Scene) {i j : Int} (h : inGrid i j) :
    s.slot i j = some (s.grid i j) := by
  simp [Scene.slot, h]

theorem slot_eq_some_iff (s : Scene) (i j : Int) (p : Nat) :
    s.slot i j = some p ↔ inGrid i j ∧ s.grid i j = p := by
  unfold Scene.slot
  split <;> simp [*]

theorem obj_of_inGrid (s : Scene) {i j : Int} (h : inGrid i j) :
    s.obj i j = some (s.heap (s.grid i j)) := by
  simp [Scene.obj, slot_of_inGrid s h]

theorem getID_of_inGrid (s : Scene) {i j : Int} (h : inGrid i j) :
    s.getID i j = some (s.tid i j) := by
  simp [Scene.getID, obj_of_inGrid s h, Scene.tid]

theorem getID_eq_some_iff (s : Scene) (i j : Int) (t : Int) :
    s.getID i j = some t ↔ inGrid i j ∧ s.tid i j = t := by
  unfold Scene.getID Scene.obj Scene.slot Scene.tid
  split <;> simp [*]

theorem GetPosition_of_inGrid (s : Scene) {i j : Int} (h : inGrid i j) :
    s.GetPosition i j = some (s.heap (s.grid i j)).position := by
  simp [Scene.GetPosition, obj_of_inGrid s h, Object.GetPosition]

/-! ## Closed form of `Legal` -/

theorem same3_of_inGrid (s : Scene) {p q r : Int × Int} (hp : inGrid p.1 p.2)
    (hq : inGrid q.1 q.2) (hr : inGrid r.1 r.2) :
    s.same3 p q r = some (decide (s.tid p.1 p.2 = s.tid q.1 q.2)
      && decide (s.tid q.1 q.2 = s.tid r.1 r.2)) := by
  simp only [Scene.same3, getID_of_inGrid s hp, getID_of_inGrid s hq, getID_of_inGrid s hr]
  by_cases h : s.tid p.1 p.2 = s.tid q.1 q.2
  · simp [h]; rfl
  · simp [h]

theorem block_of_inside (s : Scene) (k : Block) (h : k.guard = true → k.inside) :
    s.block k = some (s.hit k) := by
  obtain ⟨g, p, q, r⟩ := k
  cases g with
  | false => simp [Scene.block, Scene.hit]
  | true =>
    obtain ⟨hp, hq, hr⟩ := h rfl
    simp [Scene.block, Scene.hit, same3_of_inGrid s hp hq hr]

theorem firstTrue_map_block (s : Scene) (l : List Block)
    (h : ∀ k ∈ l, k.guard = true → k.inside) :
    firstTrue (l.map s.block) = some (l.any s.hit) := by
  induction l with
  | nil => rfl
  | cons k l ih =>
    have hk := block_of_inside s k (h k (List.mem_cons_self _ _))
    have hl := ih (fun k' hk' => h k' (List.mem_cons_of_mem _ hk'))
    cases hv : s.hit k <;> simp [firstTrue, hk, hl, hv]

/-- A block whose guard holds reads only cells of the grid. -/
theorem blocks_inside {a b c d : Int} (hab : inGrid a b) (hcd : inGrid c d) :
    ∀ k ∈ blocks a b c d, k.guard = true → k.inside := by
  unfold inGrid at hab hcd
  intro k hk
  simp only [blocks, List.mem_cons, List.mem_singleton, List.not_mem_nil, or_false] at hk
  rcases hk with h | h | h | h | h | h | h | h | h | h | h | h <;> subst h <;>
    simp only [Block.inside, inGrid, Bool.and_eq_true, decide_eq_true_eq] <;> omega

theorem Legal_of_inGrid (s : Scene) {a b c d : Int} (hab : inGrid a b) (hcd : inGrid c d) :
    Legal s a b c d = some ((blocks a b c d).any s.hit) :=
  firstTrue_map_block s _ (blocks_inside hab hcd)

theorem Legal_true_iff (s : Scene) {a b c d : Int} (hab : inGrid a b) (hcd : inGrid c d) :
    Legal s a b c d = some true ↔ ∃ k ∈ blocks a b c d, s.hit k = true := by
  rw [Legal_of_inGrid s hab hcd]
  simp [List.any_eq_true]

theorem hit_iff (s : Scene) (k : Block) :
    s.hit k = true ↔ k.guard = true ∧ s.tid k.p.1 k.p.2 = s.tid k.q.1 k.q.2
      ∧ s.tid k.q.1 k.q.2 = s.tid k.r.1 k.r.2 := by
  simp [Scene.hit, and_assoc]

/-! ## The exchange step and `Swap` -/

theorem exchange_eq (s : Scene) {u v x y : Int} (hu : inGrid u v) (hx : inGrid x y) :
    exchange s u v x y = some
      { s with
        heap := Function.update
          (Function.update s.heap (s.grid u v)
            ((s.heap (s.grid u v)).SetPosition (s.heap (s.grid x y)).position))
          (s.grid x y)
          ((Function.update s.heap (s.grid u v)
            ((s.heap (s.grid u v)).SetPosition (s.heap (s.grid x y)).position)
              (s.grid x y)).SetPosition (s.heap (s.grid u v)).position)
        grid := fun i j => if i = x ∧ j = y then s.grid u v
          else if i = u ∧ j = v then s.grid x y else s.grid i j } := by
  simp [exchange, commit, Scene.GetPosition, Scene.obj, Scene.call, Scene.setSlot,
    hu, hx, Scene.slot, Object.GetPosition]

/-- What the exchange step leaves: the two slots exchanged, every type id kept with
its object, the two positions exchanged between the two objects. -/
theorem exchange_spec (s : Scene) {u v x y : Int} (hu : inGrid u v) (hx : inGrid x y) :
    ∃ t, exchange s u v x y = some t
      ∧ (∀ i j, t.grid i j = if i = x ∧ j = y then s.grid u v
          else if i = u ∧ j = v then s.grid x y else s.grid i j)
      ∧ (∀ p, (t.heap p).getID = (s.heap p).getID)
      ∧ (∀ p, (t.heap p).position =
          if p = s.grid x y then (s.heap (s.grid u v)).position
          else if p = s.grid u v then (s.heap (s.grid x y)).position
          else (s.heap p).position)
      ∧ t.x = s.x ∧ t.y = s.y ∧ t.activateThree = s.activateThree := by
  refine ⟨_, exchange_eq s hu hx, fun i j => rfl, fun p => ?_, fun p => ?_, rfl, rfl, rfl⟩
  · simp only [Function.update_apply]
    split_ifs <;> simp_all [Object.SetPosition, Object.getID]
  · simp only [Function.update_apply]
    split_ifs <;> simp_all [Object.SetPosition]

theorem exchange_tid (s t : Scene) {u v x y : Int} (hu : inGrid u v) (hx : inGrid x y)
    (h : exchange s u v x y = some t) (i j : Int) :
    t.tid i j = if i = x ∧ j = y then s.tid u v
      else if i = u ∧ j = v then s.tid x y else s.tid i j := by
  obtain ⟨t', ht', hg, hid, -⟩ := exchange_spec s hu hx
  rw [h] at ht'
  cases ht'
  unfold Scene.tid
  rw [hid, hg]
  split
  · rfl
  · split <;> rfl

theorem exchange_exchange (s : Scene) {u v x y : Int} (hu : inGrid u v) (hx : inGrid x y) :
    (exchange s u v x y).bind (fun t => exchange t u v x y) = some s := by
  rw [exchange_eq s hu hx, Option.some_bind, exchange_eq _ hu hx]
  obtain ⟨heap, grid, sx, sy, fl⟩ := s
  simp only [Option.some.injEq, Scene.mk.injEq, and_true, true_and]
  constructor
  · funext p
    by_cases huv : u = x ∧ v = y
    · obtain ⟨rfl, rfl⟩ := huv
      by_cases hp : p = grid u v <;> simp [Function.update_apply, hp, Object.SetPosition]
    · by_cases h12 : grid x y = grid u v
      · by_cases hp : p = grid u v <;>
          simp [Function.update_apply, hp, Object.SetPosition, huv, h12]
      · have h21 : ¬ grid u v = grid x y := fun h => h12 h.symm
        by_cases hp : p = grid u v
        · simp [Function.update_apply, hp, Object.SetPosition, huv, h12, h21]
        · by_cases hq : p = grid x y <;>
            simp [Function.update_apply, hp, hq, Object.SetPosition, huv, h12, h21]
  · funext i j
    by_cases hi : i = x ∧ j = y
    · obtain ⟨rfl, rfl⟩ := hi
      by_cases huv : u = i ∧ v = j
      · obtain ⟨rfl, rfl⟩ := huv; simp
      · simp [huv]
    · by_cases hj : i = u ∧ j = v
      · obtain ⟨rfl, rfl⟩ := hj; simp [hi]
      · simp [hi, hj]

theorem Legal_Select (s : Scene) (x y a b c d : Int) :
    Legal (Select s x y) a b c d = Legal s a b c d := rfl

theorem exchange_Select_released (s : Scene) (x y u v i j : Int) :
    (exchange (Select s x y) u v i j).map Scene.released =
      (exchange s u v i j).map Scene.released := by
  by_cases hu : inGrid u v <;> by_cases hi : inGrid i j <;>
    simp [exchange, commit, Scene.GetPosition, Scene.obj, Scene.call, Scene.setSlot,
      hu, hi, Scene.slot, Select, Scene.released]

/-- `Swap` on a pending selection `(x,y)`: the exchange step when `Legal` says so,
then the selection is cleared and the flag raised. -/
theorem Swap_eq (s : Scene) {u v x y : Int} (hu : inGrid u v) (hx : inGrid x y) :
    Swap (Select s x y) u v = (Legal s x y u v).bind fun ok =>
      (if ok then exchange s u v x y else some s).map Scene.released := by
  have hx' : inGrid (Select s x y).x (Select s x y).y := hx
  simp only [Swap, GetPosition_of_inGrid _ hu, GetPosition_of_inGrid _ hx',
    Legal_Select, Option.bind_eq_bind, Option.some_bind, Option.pure_def]
  simp only [show (Select s x y).x = x from rfl, show (Select s x y).y = y from rfl,
    show (Select s x y).heap = s.heap from rfl, show (Select s x y).grid = s.grid from rfl]
  cases Legal s x y u v with
  | none => rfl
  | some ok =>
    cases ok
    · rfl
    · rw [Option.some_bind, Option.some_bind, if_pos rfl, if_pos rfl,
        ← exchange_Select_released s x y u v x y]
      simp only [exchange, GetPosition_of_inGrid _ hu, GetPosition_of_inGrid _ hx,
        Option.bind_eq_bind, Option.some_bind]
      show (commit (Select s x y) u v x y (s.heap (s.grid u v)).position
          (s.heap (s.grid x y)).position).bind _ =
        Option.map Scene.released (commit (Select s x y) u v x y
          (s.heap (s.grid u v)).position (s.heap (s.grid x y)).position)
      generalize commit (Select s x y) u v x y (s.heap (s.grid u v)).position
          (s.heap (s.grid x y)).position = r
      cases r <;> rfl

/-! ## Runs -/

theorem hasRun_iff (s : Scene) (vertical : Bool) (i j : Int) :
    s.hasRun vertical i j ↔ s.hasRunB vertical i j = true := by
  cases vertical <;>
    simp only [Scene.hasRun, Scene.hasRunB, line3, List.mem_cons, List.mem_singleton,
      List.not_mem_nil, or_false, forall_eq_or_imp, forall_eq, Bool.and_eq_true, beq_iff_eq,
      if_true, Bool.false_eq_true, if_false] <;>
  · constructor
    · rintro ⟨t, h1, h2, h3⟩
      simp [h1, h2, h3]
    · rintro ⟨⟨h1, h2⟩, h3⟩
      obtain ⟨t, ht⟩ := Option.isSome_iff_exists.mp h1
      exact ⟨t, ht, by rw [← h2, ht], by rw [← h3, ← h2, ht]⟩

theorem runThrough_iff (s : Scene) (a b : Int) :
    s.runThrough a b ↔ s.runThroughB a b = true := by
  simp only [Scene.runThrough, Scene.runThroughB, Bool.or_eq_true, ← hasRun_iff]
  constructor
  · rintro ⟨vertical, i, j, hr, hm⟩
    cases vertical <;>
      simp only [line3, if_true, Bool.false_eq_true, if_false, List.mem_cons, List.mem_singleton,
        List.not_mem_nil, or_false, Prod.mk.injEq] at hm
    · rcases hm with ⟨rfl, rfl⟩ | ⟨rfl, h⟩ | ⟨rfl, h⟩
      · tauto
      · have : j = b - 1 := by omega
        subst this; tauto
      · have : j = b - 2 := by omega
        subst this; tauto
    · rcases hm with ⟨rfl, rfl⟩ | ⟨h, rfl⟩ | ⟨h, rfl⟩
      · tauto
      · have : i = a - 1 := by omega
        subst this; tauto
      · have : i = a - 2 := by omega
        subst this; tauto
  · rintro (((((h | h) | h) | h) | h) | h)
    · exact ⟨true, a, b, h, by simp [line3]⟩
    · exact ⟨true, a - 1, b, h, by simp [line3]⟩
    · exact ⟨true, a - 2, b, h, by simp [line3]⟩
    · exact ⟨false, a, b, h, by simp [line3]⟩
    · exact ⟨false, a, b - 1, h, by simp [line3]⟩
    · exact ⟨false, a, b - 2, h, by simp [line3]⟩

/-! ## Soundness of `Legal` -/

theorem fills_run_selected (s t : Scene) {a b c d : Int} (hab : inGrid a b) (hcd : inGrid c d)
    (hex : exchange s c d a b = some t) {vertical : Bool} {i j : Int}
    (hf : s.fills vertical i j (a, b) (s.tid c d)) (hn : (c, d) ∉ line3 vertical i j) :
    t.hasRun vertical i j := by
  refine ⟨s.tid c d, fun p hp => ?_⟩
  obtain ⟨hin, hty⟩ := hf.2 p hp
  rw [getID_eq_some_iff, exchange_tid s t hcd hab hex]
  refine ⟨hin, ?_⟩
  by_cases h1 : p.1 = a ∧ p.2 = b
  · rw [if_pos h1]
  · have hc : ¬ (p.1 = c ∧ p.2 = d) := by
      rintro ⟨h3, h4⟩
      exact hn (by rw [← h3, ← h4]; exact hp)
    rw [if_neg h1, if_neg hc]
    exact hty (fun h => h1 (by rw [h]; exact ⟨rfl, rfl⟩))

theorem fills_run_target (s t : Scene) {a b c d : Int} (hab : inGrid a b) (hcd : inGrid c d)
    (hex : exchange s c d a b = some t) {vertical : Bool} {i j : Int}
    (hf : s.fills vertical i j (c, d) (s.tid a b)) (hn : (a, b) ∉ line3 vertical i j) :
    t.hasRun vertical i j := by
  refine ⟨s.tid a b, fun p hp => ?_⟩
  obtain ⟨hin, hty⟩ := hf.2 p hp
  rw [getID_eq_some_iff, exchange_tid s t hcd hab hex]
  refine ⟨hin, ?_⟩
  have h1 : ¬ (p.1 = a ∧ p.2 = b) := by
    rintro ⟨h3, h4⟩
    exact hn (by rw [← h3, ← h4]; exact hp)
  rw [if_neg h1]
  by_cases hc : p.1 = c ∧ p.2 = d
  · rw [if_pos hc]
  · rw [if_neg hc]
    exact hty (fun h => hc (by rw [h]; exact ⟨rfl, rfl⟩))

theorem fills_col (s : Scene) (t : Int) (P : Int × Int) (i i1 i2 j : Int)
    (e1 : i1 = i + 1) (e2 : i2 = i + 2) (hi : 0 ≤ i) (hi2 : i2 < 10) (hj : 0 ≤ j ∧ j < 10)
    (hP : P = (i, j) ∨ P = (i1, j) ∨ P = (i2, j))
    (h0 : (i, j) ≠ P → s.tid i j = t) (h1 : (i1, j) ≠ P → s.tid i1 j = t)
    (h2 : (i2, j) ≠ P → s.tid i2 j = t) : s.fills true i j P t := by
  subst e1 e2
  refine ⟨by simpa [line3] using hP, fun p hp => ?_⟩
  simp only [line3, if_true, List.mem_cons, List.mem_singleton, List.not_mem_nil, or_false] at hp
  rcases hp with rfl | rfl | rfl
  · exact ⟨by unfold inGrid; omega, h0⟩
  · exact ⟨by unfold inGrid; simp only []; omega, h1⟩
  · exact ⟨by unfold inGrid; simp only []; omega, h2⟩

theorem fills_row (s : Scene) (t : Int) (P : Int × Int) (i j j1 j2 : Int)
    (e1 : j1 = j + 1) (e2 : j2 = j + 2) (hj : 0 ≤ j) (hj2 : j2 < 10) (hi : 0 ≤ i ∧ i < 10)
    (hP : P = (i, j) ∨ P = (i, j1) ∨ P = (i, j2))
    (h0 : (i, j) ≠ P → s.tid i j = t) (h1 : (i, j1) ≠ P → s.tid i j1 = t)
    (h2 : (i, j2) ≠ P → s.tid i j2 = t) : s.fills false i j P t := by
  subst e1 e2
  refine ⟨by simpa [line3] using hP, fun p hp => ?_⟩
  simp only [line3, Bool.false_eq_true, if_false, List.mem_cons, List.mem_singleton,
    List.not_mem_nil, or_false] at hp
  rcases hp with rfl | rfl | rfl
  · exact ⟨by unfold inGrid; omega, h0⟩
  · exact ⟨by unfold inGrid; simp only []; omega, h1⟩
  · exact ⟨by unfold inGrid; simp only []; omega, h2⟩

/-- Each block that fires names a line through its centre whose other two cells
hold the type id that is tested into the centre. -/
theorem hit_fills (s : Scene) {a b c d : Int} (hab : inGrid a b) (hcd : inGrid c d)
    (k : Block) (hk : k ∈ blocks a b c d) (hh : s.hit k = true) :
    ∃ vertical i j, s.fills vertical i j (a, b) (s.tid c d)
      ∨ s.fills vertical i j (c, d) (s.tid a b) := by
  have hin := blocks_inside hab hcd k hk
  rw [hit_iff] at hh
  obtain ⟨hg, h1, h2⟩ := hh
  have hin := hin hg
  simp only [blocks, List.mem_cons, List.mem_singleton, List.not_mem_nil, or_false] at hk
  unfold inGrid at hab hcd
  rcases hk with h | h | h | h | h | h | h | h | h | h | h | h <;> subst h <;>
    simp only [Block.inside, inGrid] at hin <;> simp only [] at h1 h2
  · refine ⟨true, a, b, Or.inl (fills_col s _ _ a (a+1) (a+2) b
      (by omega) (by omega) (by omega) (by omega) (by omega) (by simp) ?_ ?_ ?_)⟩ <;>
    intro hne <;>
    first | exact absurd rfl hne | exact h1.symm | exact (h1.trans h2).symm
  · refine ⟨true, a-2, b, Or.inl (fills_col s _ _ (a-2) (a-1) a b
      (by omega) (by omega) (by omega) (by omega) (by omega) (by simp) ?_ ?_ ?_)⟩ <;>
    intro hne <;>
    first | exact absurd rfl hne | exact h1.symm | exact (h1.trans h2).symm
  · refine ⟨true, a-1, b, Or.inl (fills_col s _ _ (a-1) a (a+1) b
      (by omega) (by omega) (by omega) (by omega) (by omega) (by simp) ?_ ?_ ?_)⟩ <;>
    intro hne <;>
    first | exact absurd rfl hne | exact h1.symm | exact (h1.trans h2).symm
  · refine ⟨false, a, b, Or.inl (fills_row s _ _ a b (b+1) (b+2)
      (by omega) (by omega) (by omega) (by omega) (by omega) (by simp) ?_ ?_ ?_)⟩ <;>
    intro hne <;>
    first | exact absurd rfl hne | exact h1.symm | exact (h1.trans h2).symm
  · refine ⟨false, a, b-2, Or.inl (fills_row s _ _ a (b-2) (b-1) b
      (by omega) (by omega) (by omega) (by omega) (by omega) (by simp) ?_ ?_ ?_)⟩ <;>
    intro hne <;>
    first | exact absurd rfl hne | exact h1.symm | exact (h1.trans h2).symm
  · refine ⟨false, a, b-1, Or.inl (fills_row s _ _ a (b-1) b (b+1)
      (by omega) (by omega) (by omega) (by omega) (by omega) (by simp) ?_ ?_ ?_)⟩ <;>
    intro hne <;>
    first | exact absurd rfl hne | exact h1.symm | exact (h1.trans h2).symm
  · refine ⟨true, c, d, Or.inr (fills_col s _ _ c (c+1) (c+2) d
      (by omega) (by omega) (by omega) (by omega) (by omega) (by simp) ?_ ?_ ?_)⟩ <;>
    intro hne <;>
    first | exact absurd rfl hne | exact h1.symm | exact (h1.trans h2).symm
  · refine ⟨true, c-2, d, Or.inr (fills_col s _ _ (c-2) (c-1) c d
      (by omega) (by omega) (by omega) (by omega) (by omega) (by simp) ?_ ?_ ?_)⟩ <;>
    intro hne <;>
    first | exact absurd rfl hne | exact h1.symm | exact (h1.trans h2).symm
  · refine ⟨true, c-1, d, Or.inr (fills_col s _ _ (c-1) c (c+1) d
      (by omega) (by omega) (by omega) (by omega) (by omega) (by simp) ?_ ?_ ?_)⟩ <;>
    intro hne <;>
    first | exact absurd rfl hne | exact h1.symm | exact (h1.trans h2).symm
  · refine ⟨false, c, d, Or.inr (fills_row s _ _ c d (d+1) (d+2)
      (by omega) (by omega) (by omega) (by omega) (by omega) (by simp) ?_ ?_ ?_)⟩ <;>
    intro hne <;>
    first | exact absurd rfl hne | exact h1.symm | exact (h1.trans h2).symm
  · refine ⟨false, c, d-2, Or.inr (fills_row s _ _ c (d-2) (d-1) d
      (by omega) (by omega) (by omega) (by omega) (by omega) (by simp) ?_ ?_ ?_)⟩ <;>
    intro hne <;>
    first | exact absurd rfl hne | exact h1.symm | exact (h1.trans h2).symm
  · refine ⟨false, c, d-1, Or.inr (fills_row s _ _ c (d-1) d (d+1)
      (by omega) (by omega) (by omega) (by omega) (by omega) (by simp) ?_ ?_ ?_)⟩ <;>
    intro hne <;>
    first | exact absurd rfl hne | exact h1.symm | exact (h1.trans h2).symm

/-! ## Claims about `Legal` -/

/-- C1, as stated, fails: in `sceneAdjacent` the cells `(4,4)`, `(4,5)`, `(4,6)` hold
the ids 2, 4, 4. `Legal(4,4,4,5)` returns true, because the block for the cells to
the right of `(4,4)` compares the id of `(4,5)` with `(4,5)` itself and with `(4,6)`;
yet after the exchange row 4 reads `0 4 2 4 3` and no three consecutive cells through
`(4,4)` or `(4,5)` are equal. -/
theorem Legal_sound_counterexample :
    inGrid 4 4 ∧ inGrid 4 5 ∧ Legal sceneAdjacent 4 4 4 5 = some true ∧
      ¬ ∃ t, exchange sceneAdjacent 4 5 4 4 = some t ∧ (t.runThrough 4 4 ∨ t.runThrough 4 5) := by
  refine ⟨by decide, by decide, by decide, ?_⟩
  rintro ⟨t, ht, hr⟩
  have hv : (exchange sceneAdjacent 4 5 4 4).map
      (fun t => t.runThroughB 4 4 || t.runThroughB 4 5) = some false := by decide
  rw [ht, Option.map_some', Option.some.injEq, Bool.or_eq_false_iff] at hv
  rw [runThrough_iff, runThrough_iff, hv.1, hv.2] at hr
  simp at hr

/-- C1, amended: when `Legal(a,b,c,d)` returns true, the exchange succeeds and there
are three consecutive cells of one row or one column, inside the grid, that include
one of the two coordinates and whose two other cells hold, before the exchange, the
type id of the other coordinate (the swap is simulated by substitution into the one
cell). When the other coordinate is not one of these three cells, they are three
equal-typed cells of the exchanged grid. -/
theorem Legal_sound_by_substitution (s : Scene) (a b c d : Int)
    (hab : inGrid a b) (hcd : inGrid c d) (h : Legal s a b c d = some true) :
    ∃ t, exchange s c d a b = some t ∧ ∃ vertical i j,
      (s.fills vertical i j (a, b) (s.tid c d)
        ∧ ((c, d) ∉ line3 vertical i j → t.hasRun vertical i j))
      ∨ (s.fills vertical i j (c, d) (s.tid a b)
        ∧ ((a, b) ∉ line3 vertical i j → t.hasRun vertical i j)) := by
  obtain ⟨t, ht, -⟩ := exchange_spec s hcd hab
  obtain ⟨k, hk, hh⟩ := (Legal_true_iff s hab hcd).mp h
  obtain ⟨vertical, i, j, hf | hf⟩ := hit_fills s hab hcd k hk hh
  · exact ⟨t, ht, vertical, i, j, Or.inl ⟨hf, fills_run_selected s t hab hcd ht hf⟩⟩
  · exact ⟨t, ht, vertical, i, j, Or.inr ⟨hf, fills_run_target s t hab hcd ht hf⟩⟩

/-- C1, amended, at `sceneAdjacent` with the coordinates `(4,4)` and `(4,5)`. -/
theorem Legal_sound_by_substitution_witness :
    (inGrid 4 4 ∧ inGrid 4 5 ∧ Legal sceneAdjacent 4 4 4 5 = some true) ∧
    ∃ t, exchange sceneAdjacent 4 5 4 4 = some t ∧ ∃ vertical i j,
      (sceneAdjacent.fills vertical i j (4, 4) (sceneAdjacent.tid 4 5)
        ∧ ((4, 5) ∉ line3 vertical i j → t.hasRun vertical i j))
      ∨ (sceneAdjacent.fills vertical i j (4, 5) (sceneAdjacent.tid 4 4)
        ∧ ((4, 4) ∉ line3 vertical i j → t.hasRun vertical i j)) :=
  ⟨⟨by decide, by decide, by decide⟩,
    Legal_sound_by_substitution sceneAdjacent 4 4 4 5 (by decide) (by decide) (by decide)⟩

/-- C2 fails on the code: in `sceneEdge` column 0 reads `4 4 2` in rows 0 to 2 and
`(2,1)` holds 4. Exchanging `(2,0)` and `(2,1)` puts three 4s in column 0, rows 0 to 2,
a run that includes `(2,0)`, but `Legal(2,0,2,1)` returns false: the block for the two
cells above `(2,0)` is guarded by `a-2 > 0` and is skipped for `a = 2`. -/
theorem Legal_misses_run_at_edge :
    inGrid 2 0 ∧ inGrid 2 1 ∧ Legal sceneEdge 2 0 2 1 = some false ∧
      ∃ t, exchange sceneEdge 2 1 2 0 = some t ∧ t.hasRun true 0 0 ∧ (2, 0) ∈ line3 true 0 0
        ∧ t.runThrough 2 0 := by
  obtain ⟨t, ht, -⟩ := @exchange_spec sceneEdge 2 1 2 0 (by decide) (by decide)
  have hv : (exchange sceneEdge 2 1 2 0).map (fun t => t.hasRunB true 0 0) = some true := by
    decide
  rw [ht, Option.map_some', Option.some.injEq] at hv
  have hr : t.hasRun true 0 0 := (hasRun_iff t true 0 0).mpr hv
  exact ⟨by decide, by decide, by decide, t, ht, hr, by decide, true, 0, 0, hr, by decide⟩

/-! ## Claims about the exchange and `Swap` -/

/-- C5: the exchange step of `Scene::Swap`, applied twice to the same pair of
in-range coordinates, succeeds both times and gives back the scene it started from:
the same store and the same grid, hence in every slot the original occupant with its
original type id and position. -/
theorem exchange_involution (s : Scene) (r1 c1 r2 c2 : Int)
    (h1 : inGrid r1 c1) (h2 : inGrid r2 c2) :
    ∃ t, exchange s r1 c1 r2 c2 = some t ∧ exchange t r1 c1 r2 c2 = some s ∧
      ∀ t2, exchange t r1 c1 r2 c2 = some t2 → ∀ i j, t2.slot i j = s.slot i j
        ∧ t2.getID i j = s.getID i j ∧ t2.GetPosition i j = s.GetPosition i j := by
  obtain ⟨t, ht, -⟩ := exchange_spec s h1 h2
  have hb := exchange_exchange s h1 h2
  rw [ht, Option.some_bind] at hb
  refine ⟨t, ht, hb, fun t2 ht2 i j => ?_⟩
  rw [hb] at ht2
  cases ht2
  exact ⟨rfl, rfl, rfl⟩

/-- C5 at `sceneAdjacent` with the coordinates `(4,5)` and `(4,4)`. -/
theorem exchange_involution_witness :
    (inGrid 4 5 ∧ inGrid 4 4) ∧
    ∃ t, exchange sceneAdjacent 4 5 4 4 = some t ∧ exchange t 4 5 4 4 = some sceneAdjacent ∧
      ∀ t2, exchange t 4 5 4 4 = some t2 → ∀ i j, t2.slot i j = sceneAdjacent.slot i j
        ∧ t2.getID i j = sceneAdjacent.getID i j
        ∧ t2.GetPosition i j = sceneAdjacent.GetPosition i j :=
  ⟨⟨by decide, by decide⟩, exchange_involution sceneAdjacent 4 5 4 4 (by decide) (by decide)⟩

/-- C6: when `Legal(x,y,u,v)` is false, `Swap(u,v)` on the pending selection `(x,y)`
succeeds and leaves the store and the grid as they were: every slot holds the same
occupant with the same type id and the same position. -/
theorem Swap_illegal_no_mutation (s : Scene) (x y u v : Int)
    (hx : inGrid x y) (hu : inGrid u v) (h : Legal s x y u v = some false) :
    ∃ t, Swap (Select s x y) u v = some t ∧ t.heap = s.heap ∧ t.grid = s.grid ∧
      ∀ i j, t.slot i j = s.slot i j ∧ t.getID i j = s.getID i j
        ∧ t.GetPosition i j = s.GetPosition i j := by
  refine ⟨s.released, ?_, rfl, rfl, fun i j => ⟨rfl, rfl, rfl⟩⟩
  rw [Swap_eq s hu hx, h]
  rfl

/-- C6 at `sceneEdge`: pending selection `(2,0)`, release on `(2,1)`. -/
theorem Swap_illegal_no_mutation_witness :
    (inGrid 2 0 ∧ inGrid 2 1 ∧ Legal sceneEdge 2 0 2 1 = some false) ∧
    ∃ t, Swap (Select sceneEdge 2 0) 2 1 = some t ∧ t.heap = sceneEdge.heap
      ∧ t.grid = sceneEdge.grid ∧
      ∀ i j, t.slot i j = sceneEdge.slot i j ∧ t.getID i j = sceneEdge.getID i j
        ∧ t.GetPosition i j = sceneEdge.GetPosition i j :=
  ⟨⟨by decide, by decide, by decide⟩,
    Swap_illegal_no_mutation sceneEdge 2 0 2 1 (by decide) (by decide) (by decide)⟩

/-- The grid built by `Initialize` holds a different object in every slot. -/
theorem Initialize_distinct (rand : Nat → Nat) : (Initialize rand).distinct := by
  intro i j i' j' h h' he
  unfold inGrid at h h'
  simp only [Initialize] at he
  omega

/-- The exchange step keeps the slots holding distinct objects. -/
theorem exchange_distinct (s t : Scene) {u v x y : Int} (hu : inGrid u v) (hx : inGrid x y)
    (h : exchange s u v x y = some t) (hd : s.distinct) : t.distinct := by
  obtain ⟨t', ht', hg, -⟩ := exchange_spec s hu hx
  rw [h] at ht'
  cases ht'
  intro i j i' j' hij hij' he
  rw [hg, hg] at he
  by_cases a1 : i = x ∧ j = y <;> by_cases a2 : i = u ∧ j = v <;>
    by_cases b1 : i' = x ∧ j' = y <;> by_cases b2 : i' = u ∧ j' = v <;>
    (first | rw [if_pos a1] at he | rw [if_neg a1] at he) <;>
    (try first | rw [if_pos a2] at he | rw [if_neg a2] at he) <;>
    (first | rw [if_pos b1] at he | rw [if_neg b1] at he) <;>
    (try first | rw [if_pos b2] at he | rw [if_neg b2] at he) <;>
    first
    | omega
    | (have k := hd _ _ _ _ (by assumption) (by assumption) he; omega)

/-- A legal `Swap`: the two type ids are exchanged, the other slots are untouched,
positions stay with the slots, the selection is cleared and the flag raised. -/
theorem Swap_of_legal (s : Scene) (x y u v : Int)
    (hx : inGrid x y) (hu : inGrid u v) (h : Legal s x y u v = some true) :
    ∃ t, Swap (Select s x y) u v = some t ∧
      t.getID u v = s.getID x y ∧ t.getID x y = s.getID u v ∧
      (∀ i j, (i, j) ≠ (u, v) → (i, j) ≠ (x, y) →
        t.slot i j = s.slot i j ∧ t.getID i j = s.getID i j) ∧
      (s.distinct → ∀ i j, t.GetPosition i j = s.GetPosition i j) ∧
      t.activateThree = true ∧ t.x = 0 ∧ t.y = 0 := by
  obtain ⟨t, ht, hg, hid, hpos, -⟩ := exchange_spec s hu hx
  have htid := exchange_tid s t hu hx ht
  have hsw : Swap (Select s x y) u v = some t.released := by
    rw [Swap_eq s hu hx, h, Option.some_bind, if_pos rfl, ht]
    rfl
  have hslot : ∀ i j, t.released.slot i j = if inGrid i j then some (t.grid i j) else none :=
    fun i j => rfl
  have hgid : ∀ i j, inGrid i j → t.released.getID i j = some (t.tid i j) :=
    fun i j hij => getID_of_inGrid t.released hij
  refine ⟨t.released, hsw, ?_, ?_, ?_, ?_, rfl, rfl, rfl⟩
  · rw [hgid u v hu, getID_of_inGrid s hx, htid]
    by_cases he : u = x ∧ v = y
    · rw [if_pos he, he.1, he.2]
    · rw [if_neg he, if_pos ⟨rfl, rfl⟩]
  · rw [hgid x y hx, getID_of_inGrid s hu, htid, if_pos ⟨rfl, rfl⟩]
  · intro i j h1 h2
    have e1 : ¬ (i = x ∧ j = y) := fun e => h2 (by rw [e.1, e.2])
    have e2 : ¬ (i = u ∧ j = v) := fun e => h1 (by rw [e.1, e.2])
    by_cases hij : inGrid i j
    · rw [hgid i j hij, getID_of_inGrid s hij, htid, if_neg e1, if_neg e2, hslot, if_pos hij,
        slot_of_inGrid s hij, hg, if_neg e1, if_neg e2]
      exact ⟨rfl, rfl⟩
    · have hs : s.slot i j = none := by simp [Scene.slot, hij]
      have hs' : t.released.slot i j = none := by rw [hslot, if_neg hij]
      simp [Scene.getID, Scene.obj, hs, hs']
  · intro hd i j
    by_cases hij : inGrid i j
    · rw [GetPosition_of_inGrid _ hij, GetPosition_of_inGrid _ hij]
      show some (t.heap (t.grid i j)).position = _
      rw [hpos, hg]
      by_cases e1 : i = x ∧ j = y
      · obtain ⟨rfl, rfl⟩ := e1
        by_cases e3 : s.grid u v = s.grid i j
        · simp [e3]
        · simp [e3]
      · by_cases e2 : i = u ∧ j = v
        · obtain ⟨rfl, rfl⟩ := e2
          simp [e1]
        · have n1 : ¬ s.grid i j = s.grid x y := fun e => e1 (hd i j x y hij hx e)
          have n2 : ¬ s.grid i j = s.grid u v := fun e => e2 (hd i j u v hij hu e)
          simp [e1, e2, n1, n2]
    · have hs : s.slot i j = none := by simp [Scene.slot, hij]
      have hs' : t.released.slot i j = none := by rw [hslot, if_neg hij]
      simp [Scene.GetPosition, Scene.obj, hs, hs']

/-- C7: when `Legal(x,y,u,v)` is true, `Swap(u,v)` on the pending selection `(x,y)`
succeeds; afterwards the type id at `(u,v)` is the former type id at `(x,y)` and
conversely, every other slot keeps its occupant and type id, and (the slots holding
distinct objects, as they do from `Initialize` on) the position read at every slot is
the position that was read there before. -/
theorem Swap_legal_postcondition (s : Scene) (x y u v : Int)
    (hx : inGrid x y) (hu : inGrid u v) (h : Legal s x y u v = some true) :
    ∃ t, Swap (Select s x y) u v = some t ∧
      t.getID u v = s.getID x y ∧ t.getID x y = s.getID u v ∧
      (∀ i j, (i, j) ≠ (u, v) → (i, j) ≠ (x, y) →
        t.slot i j = s.slot i j ∧ t.getID i j = s.getID i j) ∧
      (s.distinct → ∀ i j, t.GetPosition i j = s.GetPosition i j) := by
  obtain ⟨t, h1, h2, h3, h4, h5, -⟩ := Swap_of_legal s x y u v hx hu h
  exact ⟨t, h1, h2, h3, h4, h5⟩

/-- C7 at `sceneAdjacent`, whose slots hold distinct objects: pending selection
`(4,4)`, release on `(4,5)`. -/
theorem Swap_legal_postcondition_witness :
    (inGrid 4 4 ∧ inGrid 4 5 ∧ Legal sceneAdjacent 4 4 4 5 = some true
      ∧ sceneAdjacent.distinct) ∧
    ∃ t, Swap (Select sceneAdjacent 4 4) 4 5 = some t ∧
      t.getID 4 5 = sceneAdjacent.getID 4 4 ∧ t.getID 4 4 = sceneAdjacent.getID 4 5 ∧
      (∀ i j, (i, j) ≠ (4, 5) → (i, j) ≠ (4, 4) →
        t.slot i j = sceneAdjacent.slot i j ∧ t.getID i j = sceneAdjacent.getID i j) ∧
      (sceneAdjacent.distinct → ∀ i j, t.GetPosition i j = sceneAdjacent.GetPosition i j) :=
  ⟨⟨by decide, by decide, by decide, Initialize_distinct _⟩,
    Swap_legal_postcondition sceneAdjacent 4 4 4 5 (by decide) (by decide) (by decide)⟩

/-- The two cells that a block compares with the tested id are two different cells
of the row or column of the block's centre, at most two steps from it; the tested id
is read at the other coordinate. -/
theorem blocks_near {a b c d : Int} (k : Block) (hk : k ∈ blocks a b c d) :
    k.q ≠ k.r ∧ ((k.p = (c, d) ∧ near k.q (a, b) ∧ near k.r (a, b))
      ∨ (k.p = (a, b) ∧ near k.q (c, d) ∧ near k.r (c, d))) := by
  simp only [blocks, List.mem_cons, List.mem_singleton, List.not_mem_nil, or_false] at hk
  rcases hk with h | h | h | h | h | h | h | h | h | h | h | h <;> subst h <;>
    simp only [near, ne_eq, Prod.mk.injEq, true_and, and_true, not_and, true_or, or_true] <;>
    omega

/-- C8: when the two cells have the same type id and `Legal` returns true, some third
cell, different from both, has that type id and lies in the row or the column of one
of the two cells, at most two steps from it. -/
theorem Legal_equal_types_third_cell (s : Scene) (a b c d : Int)
    (hab : inGrid a b) (hcd : inGrid c d) (ht : s.getID a b = s.getID c d)
    (h : Legal s a b c d = some true) :
    ∃ i j, inGrid i j ∧ s.getID i j = s.getID a b ∧ (i, j) ≠ (a, b) ∧ (i, j) ≠ (c, d)
      ∧ (near (i, j) (a, b) ∨ near (i, j) (c, d)) := by
  obtain ⟨k, hk, hh⟩ := (Legal_true_iff s hab hcd).mp h
  obtain ⟨hg, h1, h2⟩ := (hit_iff s k).mp hh
  obtain ⟨-, hq, hr⟩ := blocks_inside hab hcd k hk hg
  obtain ⟨hqr, hgeo⟩ := blocks_near k hk
  rw [getID_of_inGrid s hab, getID_of_inGrid s hcd, Option.some.injEq] at ht
  have hp : s.tid k.p.1 k.p.2 = s.tid a b := by
    rcases hgeo with ⟨e, -⟩ | ⟨e, -⟩ <;> rw [e]
    exact ht.symm
  have sel : ∀ n : Int × Int, inGrid n.1 n.2 → s.tid n.1 n.2 = s.tid a b → n ≠ k.p →
      (near n (a, b) ∨ near n (c, d)) → (k.p = (c, d) ∧ near n (a, b) ∨ k.p = (a, b) ∧ near n (c, d)) →
      ∃ i j, inGrid i j ∧ s.getID i j = s.getID a b ∧ (i, j) ≠ (a, b) ∧ (i, j) ≠ (c, d)
        ∧ (near (i, j) (a, b) ∨ near (i, j) (c, d)) := by
    intro n hn htn hnp hnear hside
    refine ⟨n.1, n.2, hn, ?_, ?_, ?_, hnear⟩
    · rw [getID_of_inGrid s hn, getID_of_inGrid s hab, htn]
    · rcases hside with ⟨e, hne⟩ | ⟨e, -⟩
      · exact hne.1
      · rw [← e]; exact hnp
    · rcases hside with ⟨e, -⟩ | ⟨e, hne⟩
      · rw [← e]; exact hnp
      · exact hne.1
  by_cases hqp : k.q = k.p
  · refine sel k.r hr (by rw [← h2, ← h1, hp]) (fun e => hqr (by rw [hqp, e])) ?_ ?_
    · rcases hgeo with ⟨-, -, g⟩ | ⟨-, -, g⟩
      · exact Or.inl g
      · exact Or.inr g
    · rcases hgeo with ⟨e, -, g⟩ | ⟨e, -, g⟩
      · exact Or.inl ⟨e, g⟩
      · exact Or.inr ⟨e, g⟩
  · refine sel k.q hq (by rw [← h1, hp]) hqp ?_ ?_
    · rcases hgeo with ⟨-, g, -⟩ | ⟨-, g, -⟩
      · exact Or.inl g
      · exact Or.inr g
    · rcases hgeo with ⟨e, g, -⟩ | ⟨e, g, -⟩
      · exact Or.inl ⟨e, g⟩
      · exact Or.inr ⟨e, g⟩

/-- C8 at `sceneTwins`, where `(4,4)` and `(4,5)` both hold the id 4. -/
theorem Legal_equal_types_third_cell_witness :
    (inGrid 4 4 ∧ inGrid 4 5 ∧ sceneTwins.getID 4 4 = sceneTwins.getID 4 5
      ∧ Legal sceneTwins 4 4 4 5 = some true) ∧
    ∃ i j, inGrid i j ∧ sceneTwins.getID i j = sceneTwins.getID 4 4 ∧ (i, j) ≠ (4, 4)
      ∧ (i, j) ≠ (4, 5) ∧ (near (i, j) (4, 4) ∨ near (i, j) (4, 5)) :=
  ⟨⟨by decide, by decide, by decide, by decide⟩,
    Legal_equal_types_third_cell sceneTwins 4 4 4 5 (by decide) (by decide) (by decide)
      (by decide)⟩

/-- C9: for coordinates in `[0,9]`, `Legal` returns a boolean, that is, none of its
reads of `grid` falls outside `[0,9]`; a block whose guard holds reads only cells of
the grid; a block that would need a cell outside the grid is skipped and yields false;
and a true result comes from a block whose three cells are all inside the grid. -/
theorem Legal_bounds_safe (s : Scene) (a b c d : Int) (hab : inGrid a b) (hcd : inGrid c d) :
    (∃ r, Legal s a b c d = some r) ∧
    (∀ k ∈ blocks a b c d, k.guard = true → k.inside) ∧
    (∀ k ∈ blocks a b c d, ¬ k.inside → k.guard = false ∧ s.block k = some false) ∧
    (Legal s a b c d = some true →
      ∃ k ∈ blocks a b c d, k.inside ∧ s.block k = some true) := by
  refine ⟨⟨_, Legal_of_inGrid s hab hcd⟩, blocks_inside hab hcd, fun k hk hn => ?_, fun h => ?_⟩
  · have hg : k.guard = false := by
      cases hgv : k.guard
      · rfl
      · exact absurd (blocks_inside hab hcd k hk hgv) hn
    exact ⟨hg, by simp [Scene.block, hg]⟩
  · obtain ⟨k, hk, hh⟩ := (Legal_true_iff s hab hcd).mp h
    have hg : k.guard = true := ((hit_iff s k).mp hh).1
    have hin := blocks_inside hab hcd k hk
    exact ⟨k, hk, hin hg, by rw [block_of_inside s k hin, hh]⟩

/-- C9 at `sceneEdge` with the corner coordinates `(0,0)` and `(9,9)`. -/
theorem Legal_bounds_safe_witness :
    (inGrid 0 0 ∧ inGrid 9 9) ∧
    (∃ r, Legal sceneEdge 0 0 9 9 = some r) ∧
    (∀ k ∈ blocks 0 0 9 9, k.guard = true → k.inside) ∧
    (∀ k ∈ blocks 0 0 9 9, ¬ k.inside → k.guard = false ∧ sceneEdge.block k = some false) ∧
    (Legal sceneEdge 0 0 9 9 = some true →
      ∃ k ∈ blocks 0 0 9 9, k.inside ∧ sceneEdge.block k = some true) :=
  ⟨⟨by decide, by decide⟩, Legal_bounds_safe sceneEdge 0 0 9 9 (by decide) (by decide)⟩

/-- C10: a press overwrites the pending selection, so `Select(p); Select(q); Swap(r)`
leaves exactly the scene that `Select(q); Swap(r)` leaves; and after `Select(2,3);
Select(5,5)`, `Swap(1,1)` is decided by `Legal(5,5,1,1)`: the exchange of `(1,1)` and
`(5,5)` when it is true, nothing when it is false, then the release bookkeeping. -/
theorem last_press_wins (s : Scene) (p1 p2 q1 q2 r1 r2 : Int) :
    Swap (Select (Select s p1 p2) q1 q2) r1 r2 = Swap (Select s q1 q2) r1 r2 ∧
    Swap (Select (Select s 2 3) 5 5) 1 1 = (Legal s 5 5 1 1).bind fun ok =>
      (if ok then exchange s 1 1 5 5 else some s).map Scene.released :=
  ⟨rfl, Swap_eq s (by decide) (by decide)⟩

/-! ## Bombs and the scan -/

theorem Bomb_eq (s : Scene) {u v : Int} (hu : inGrid u v) :
    Bomb s u v = some { s with
      heap := Function.update s.heap (s.grid u v) (s.heap (s.grid u v)).bombed
      activateThree := true } := by
  simp [Bomb, Scene.call, Scene.slot, hu, Object.bombed]

theorem bombed_bombed (o : Object) : o.bombed.bombed = o.bombed := rfl

theorem bombsFrom_refl (s : Scene) : s.bombsFrom s :=
  ⟨rfl, rfl, rfl, fun _ => Or.inl rfl⟩

theorem bombsFrom_trans {s t r : Scene} (h1 : s.bombsFrom t) (h2 : t.bombsFrom r) :
    s.bombsFrom r := by
  obtain ⟨g1, x1, y1, o1⟩ := h1
  obtain ⟨g2, x2, y2, o2⟩ := h2
  refine ⟨g2.trans g1, x2.trans x1, y2.trans y1, fun p => ?_⟩
  rcases o2 p with e2 | e2 <;> rcases o1 p with e1 | e1 <;> rw [e2, e1]
  · exact Or.inl rfl
  · exact Or.inr rfl
  · exact Or.inr rfl
  · exact Or.inr rfl

theorem bombsFrom_tid {s t : Scene} (h : s.bombsFrom t) (i j : Int) : t.tid i j = s.tid i j := by
  unfold Scene.tid
  rw [h.1]
  rcases h.2.2.2 (s.grid i j) with e | e <;> rw [e]
  rfl

theorem bombsFrom_getID {s t : Scene} (h : s.bombsFrom t) (i j : Int) :
    t.getID i j = s.getID i j := by
  by_cases hij : inGrid i j
  · rw [getID_of_inGrid t hij, getID_of_inGrid s hij, bombsFrom_tid h]
  · simp [Scene.getID, Scene.obj, Scene.slot, hij]

theorem bombsFrom_same3 {s t : Scene} (h : s.bombsFrom t) (p q r : Int × Int) :
    t.same3 p q r = s.same3 p q r := by
  simp only [Scene.same3, bombsFrom_getID h]

theorem bombed_iff (s : Scene) (i j : Int) :
    s.bombed i j ↔ inGrid i j ∧ (s.heap (s.grid i j)).rotation = 270
      ∧ (s.heap (s.grid i j)).scale = 6 := by
  unfold Scene.bombed
  by_cases hij : inGrid i j
  · simp [obj_of_inGrid s hij, hij]
  · simp [Scene.obj, Scene.slot, hij]

theorem bombsFrom_bombed {s t : Scene} (h : s.bombsFrom t) {i j : Int} (hb : s.bombed i j) :
    t.bombed i j := by
  rw [bombed_iff] at hb ⊢
  refine ⟨hb.1, ?_⟩
  rw [h.1]
  rcases h.2.2.2 (s.grid i j) with e | e <;> rw [e]
  · exact hb.2
  · exact ⟨rfl, rfl⟩

theorem Bomb_spec (s : Scene) {u v : Int} (hu : inGrid u v) :
    ∃ t, Bomb s u v = some t ∧ s.bombsFrom t ∧ t.bombed u v := by
  refine ⟨_, Bomb_eq s hu, ⟨rfl, rfl, rfl, fun p => ?_⟩, ?_⟩
  · by_cases hp : p = s.grid u v
    · subst hp; exact Or.inr (by simp)
    · exact Or.inl (by simp [Function.update_apply, hp])
  · rw [bombed_iff]
    exact ⟨hu, by simp [Object.bombed, Object.SetRotation, Object.SetScale]⟩

/-- Three bombs in a row, as in the two branches of `ThreeInARow`. -/
theorem Bomb3_spec (s : Scene) {a b c d e f : Int} (h1 : inGrid a b) (h2 : inGrid c d)
    (h3 : inGrid e f) :
    ∃ t, ((Bomb s a b).bind fun t1 => (Bomb t1 c d).bind fun t2 => Bomb t2 e f) = some t
      ∧ s.bombsFrom t ∧ t.bombed a b ∧ t.bombed c d ∧ t.bombed e f := by
  obtain ⟨t1, e1, f1, b1⟩ := Bomb_spec s h1
  obtain ⟨t2, e2, f2, b2⟩ := Bomb_spec t1 h2
  obtain ⟨t3, e3, f3, b3⟩ := Bomb_spec t2 h3
  refine ⟨t3, by rw [e1, Option.some_bind, e2, Option.some_bind, e3],
    bombsFrom_trans (bombsFrom_trans f1 f2) f3,
    bombsFrom_bombed f3 (bombsFrom_bombed f2 b1), bombsFrom_bombed f3 b2, b3⟩

theorem bind_ite_bind {α : Type} (m : Option Bool) (B C : Option α) (K : α → Option α) :
    (m.bind fun ok => if ok = true then B.bind K else C.bind K) =
      (m.bind fun ok => if ok = true then B else C).bind K := by
  cases m with
  | none => rfl
  | some ok => cases ok <;> rfl

theorem vCentre_of_bombsFrom {s t : Scene} (h : s.bombsFrom t) {i j : Int}
    (hc : s.vCentre i j) : t.vCentre i j := by
  unfold Scene.vCentre at hc ⊢
  simp only [bombsFrom_tid h]
  exact hc

theorem hCentre_of_bombsFrom {s t : Scene} (h : s.bombsFrom t) {i j : Int}
    (hc : s.hCentre i j) : t.hCentre i j := by
  unfold Scene.hCentre at hc ⊢
  simp only [bombsFrom_tid h]
  exact hc

/-- One step of the scan: it succeeds on every cell of the grid, only bombs, and
bombs the three cells of each test it accepts. -/
theorem scanCell_spec (s : Scene) {i j : Int} (hij : inGrid i j) :
    ∃ t, scanCell s i j = some t ∧ s.bombsFrom t
      ∧ (s.vCentre i j → t.bombed i j ∧ t.bombed (i-1) j ∧ t.bombed (i+1) j)
      ∧ (s.hCentre i j → t.bombed i j ∧ t.bombed i (j-1) ∧ t.bombed i (j+1)) := by
  unfold inGrid at hij
  by_cases hg : i - 1 > 0 ∧ i + 1 < 10
  · -- the vertical test
    have hv : ∃ s1, (s.same3 (i, j) (i+1, j) (i-1, j)).bind (fun ok =>
          if ok = true then
            (Bomb s i j).bind fun t1 => (Bomb t1 (i-1) j).bind fun t2 => Bomb t2 (i+1) j
          else some s) = some s1 ∧ s.bombsFrom s1
        ∧ (s.vCentre i j → s1.bombed i j ∧ s1.bombed (i-1) j ∧ s1.bombed (i+1) j) := by
      rw [same3_of_inGrid s (p := (i, j)) (q := (i+1, j)) (r := (i-1, j))
        (by unfold inGrid; simp only []; omega) (by unfold inGrid; simp only []; omega)
        (by unfold inGrid; simp only []; omega), Option.some_bind]
      by_cases hc : s.tid i j = s.tid (i+1) j ∧ s.tid (i+1) j = s.tid (i-1) j
      · obtain ⟨t, ht, hf, hb⟩ := Bomb3_spec s (a := i) (b := j) (c := i-1) (d := j)
          (e := i+1) (f := j) (by unfold inGrid; omega) (by unfold inGrid; omega)
          (by unfold inGrid; omega)
        refine ⟨t, ?_, hf, fun _ => hb⟩
        simp only [hc.1, hc.2, decide_True, Bool.and_self, if_true]
        simpa [hc.1, hc.2] using ht
      · refine ⟨s, ?_, bombsFrom_refl s, fun hvc => absurd hvc.2.2 hc⟩
        have : (decide (s.tid i j = s.tid (i+1) j) && decide (s.tid (i+1) j = s.tid (i-1) j))
            = false := by
          refine Bool.eq_false_iff.mpr fun hd => hc ?_
          simpa only [Bool.and_eq_true, decide_eq_true_eq] using hd
        simp only [this, Bool.false_eq_true, if_false]
    obtain ⟨s1, e1, f1, b1⟩ := hv
    by_cases hg2 : j - 1 > 0 ∧ j + 1 < 10
    · have hh : ∃ t, (s1.same3 (i, j) (i, j+1) (i, j-1)).bind (fun ok =>
            if ok = true then
              (Bomb s1 i j).bind fun t1 => (Bomb t1 i (j-1)).bind fun t2 => Bomb t2 i (j+1)
            else some s1) = some t ∧ s1.bombsFrom t
          ∧ (s1.hCentre i j → t.bombed i j ∧ t.bombed i (j-1) ∧ t.bombed i (j+1)) := by
        rw [same3_of_inGrid s1 (p := (i, j)) (q := (i, j+1)) (r := (i, j-1))
          (by unfold inGrid; simp only []; omega) (by unfold inGrid; simp only []; omega)
          (by unfold inGrid; simp only []; omega), Option.some_bind]
        by_cases hc : s1.tid i j = s1.tid i (j+1) ∧ s1.tid i (j+1) = s1.tid i (j-1)
        · obtain ⟨t, ht, hf, hb⟩ := Bomb3_spec s1 (a := i) (b := j) (c := i) (d := j-1)
            (e := i) (f := j+1) (by unfold inGrid; omega) (by unfold inGrid; omega)
            (by unfold inGrid; omega)
          refine ⟨t, ?_, hf, fun _ => hb⟩
          simpa [hc.1, hc.2] using ht
        · refine ⟨s1, ?_, bombsFrom_refl s1, fun hvc => absurd hvc.2.2 hc⟩
          have : (decide (s1.tid i j = s1.tid i (j+1))
              && decide (s1.tid i (j+1) = s1.tid i (j-1))) = false := by
            refine Bool.eq_false_iff.mpr fun hd => hc ?_
            simpa only [Bool.and_eq_true, decide_eq_true_eq] using hd
          simp only [this, Bool.false_eq_true, if_false]
      obtain ⟨t, e2, f2, b2⟩ := hh
      refine ⟨t, ?_, bombsFrom_trans f1 f2, fun hvc => ?_, fun hhc => b2 (hCentre_of_bombsFrom f1 hhc)⟩
      · simp only [scanCell, hg, hg2, and_self, if_true, Option.bind_eq_bind, Option.pure_def] at e1 e2 ⊢
        rw [bind_ite_bind, e1, Option.some_bind]
        exact e2
      · obtain ⟨c1, c2, c3⟩ := b1 hvc
        exact ⟨bombsFrom_bombed f2 c1, bombsFrom_bombed f2 c2, bombsFrom_bombed f2 c3⟩
    · refine ⟨s1, ?_, f1, b1, fun hhc => absurd hhc.2.1 (by omega)⟩
      simp only [scanCell, hg, hg2, and_self, if_true, if_false, Option.bind_eq_bind,
        Option.pure_def] at e1 ⊢
      rw [bind_ite_bind, e1, Option.some_bind]
  · refine ⟨s, ?_, bombsFrom_refl s, fun hvc => absurd hvc.1 (by omega),
      fun hhc => absurd hhc.1 (by omega)⟩
    simp only [scanCell, hg, if_false]
    rfl

/-- A loop whose steps succeed and only bomb succeeds and only bombs. -/
theorem foldlM_bombsFrom {α : Type} (f : Scene → α → Option Scene) (l : List α)
    (hf : ∀ s a, a ∈ l → ∃ t, f s a = some t ∧ s.bombsFrom t) (s : Scene) :
    ∃ t, l.foldlM f s = some t ∧ s.bombsFrom t := by
  induction l generalizing s with
  | nil => exact ⟨s, rfl, bombsFrom_refl s⟩
  | cons a l ih =>
    obtain ⟨s1, e1, f1⟩ := hf s a (List.mem_cons_self _ _)
    obtain ⟨t, e2, f2⟩ := ih (fun s' a' ha' => hf s' a' (List.mem_cons_of_mem _ ha')) s1
    exact ⟨t, by rw [List.foldlM_cons, e1]; exact e2, bombsFrom_trans f1 f2⟩

/-- What the step for `k` establishes from a property `pre` kept by bombing is
still there at the end of the loop, when bombing keeps it too. -/
theorem foldlM_establish {α : Type} (f : Scene → α → Option Scene) (l : List α)
    (hf : ∀ s a, a ∈ l → ∃ t, f s a = some t ∧ s.bombsFrom t)
    (k : α) (hk : k ∈ l) (pre Q : Scene → Prop)
    (hpre : ∀ s t, pre s → s.bombsFrom t → pre t)
    (hQ : ∀ s t, Q s → s.bombsFrom t → Q t)
    (hstep : ∀ s t, pre s → f s k = some t → Q t) (s : Scene) (hs : pre s) :
    ∃ t, l.foldlM f s = some t ∧ Q t := by
  induction l generalizing s with
  | nil => exact absurd hk (List.not_mem_nil _)
  | cons a l ih =>
    obtain ⟨s1, e1, f1⟩ := hf s a (List.mem_cons_self _ _)
    have hf' : ∀ s a, a ∈ l → ∃ t, f s a = some t ∧ s.bombsFrom t :=
      fun s' a' ha' => hf s' a' (List.mem_cons_of_mem _ ha')
    rcases List.mem_cons.mp hk with rfl | hk'
    · obtain ⟨t, e2, f2⟩ := foldlM_bombsFrom f l hf' s1
      exact ⟨t, by rw [List.foldlM_cons, e1]; exact e2, hQ s1 t (hstep s s1 hs e1) f2⟩
    · obtain ⟨t, e2, q⟩ := ih hf' hk' s1 (hpre s s1 hs f1)
      exact ⟨t, by rw [List.foldlM_cons, e1]; exact e2, q⟩

theorem inGrid_of_range {i j : Nat} (hi : i ∈ List.range 10) (hj : j ∈ List.range 10) :
    inGrid (i : Int) (j : Int) := by
  rw [List.mem_range] at hi hj
  unfold inGrid
  omega

theorem scanRow_bombsFrom (s : Scene) {i : Nat} (hi : i ∈ List.range 10) :
    ∃ t, scanRow s (i : Int) = some t ∧ s.bombsFrom t :=
  foldlM_bombsFrom _ _ (fun s' j hj => by
    obtain ⟨t, e, f, -⟩ := scanCell_spec s' (inGrid_of_range hi hj)
    exact ⟨t, e, f⟩) s

/-- The scan succeeds, only bombs, and bombs the three cells of every centre that
one of its two tests accepts. -/
theorem ThreeInARow_spec (s : Scene) (ha : s.activateThree = true) :
    ∃ t, ThreeInARow s = some t ∧ s.bombsFrom t
      ∧ (∀ i j, s.vCentre i j → t.bombed i j ∧ t.bombed (i-1) j ∧ t.bombed (i+1) j)
      ∧ (∀ i j, s.hCentre i j → t.bombed i j ∧ t.bombed i (j-1) ∧ t.bombed i (j+1)) := by
  have hrow : ∀ s' (a : Nat), a ∈ List.range 10 →
      ∃ t, scanRow s' (a : Int) = some t ∧ s'.bombsFrom t :=
    fun s' a ha' => scanRow_bombsFrom s' ha'
  have hthree : ThreeInARow s =
      (List.range 10).foldlM (fun t (i : Nat) => scanRow t (i : Int)) s := by
    simp [ThreeInARow, ha]
  obtain ⟨t, et, ft⟩ := foldlM_bombsFrom (fun t (i : Nat) => scanRow t (i : Int)) _ hrow s
  have key : ∀ (i j : Int) (pre Q : Scene → Prop), inGrid i j →
      (∀ s t, pre s → s.bombsFrom t → pre t) → (∀ s t, Q s → s.bombsFrom t → Q t) →
      (∀ s t, pre s → scanCell s i j = some t → Q t) → pre s → Q t := by
    intro i j pre Q hij hpre hQ hstep hs
    unfold inGrid at hij
    have hi : i.toNat ∈ List.range 10 := by rw [List.mem_range]; omega
    have hj : j.toNat ∈ List.range 10 := by rw [List.mem_range]; omega
    have ei : ((i.toNat : Nat) : Int) = i := by omega
    have ej : ((j.toNat : Nat) : Int) = j := by omega
    obtain ⟨t', et', q⟩ := foldlM_establish (fun t (i : Nat) => scanRow t (i : Int)) _ hrow
      i.toNat hi pre Q hpre hQ (fun s1 t1 h1 e1 => by
        obtain ⟨t2, et2, q2⟩ := foldlM_establish (fun t (j : Nat) => scanCell t (i.toNat : Int) (j : Int))
          (List.range 10) (fun s' b hb => by
            obtain ⟨t, e, f, -⟩ := scanCell_spec s' (inGrid_of_range hi hb)
            exact ⟨t, e, f⟩) j.toNat hj pre Q hpre hQ (fun s2 t2 h2 e2 => by
              have e2' : scanCell s2 (i.toNat : Int) (j.toNat : Int) = some t2 := e2
              rw [ei, ej] at e2'
              exact hstep s2 t2 h2 e2') s1 h1
        have e3 : scanRow s1 (i.toNat : Int) = some t2 := et2
        have e1' : scanRow s1 (i.toNat : Int) = some t1 := e1
        rw [e3] at e1'
        cases e1'
        exact q2) s hs
    rw [et] at et'
    cases et'
    exact q
  refine ⟨t, hthree.trans et, ft, fun i j hc => ?_, fun i j hc => ?_⟩
  · refine key i j (fun s => s.vCentre i j)
      (fun t => t.bombed i j ∧ t.bombed (i-1) j ∧ t.bombed (i+1) j)
      (by unfold inGrid; have := hc.1; have := hc.2.1; omega)
      (fun s t h f => vCentre_of_bombsFrom f h)
      (fun s t h f => ⟨bombsFrom_bombed f h.1, bombsFrom_bombed f h.2.1, bombsFrom_bombed f h.2.2⟩)
      (fun s1 t1 h1 e1 => ?_) hc
    obtain ⟨t2, e2, -, b, -⟩ := scanCell_spec s1 (i := i) (j := j)
      (by unfold inGrid; have := hc.1; have := hc.2.1; omega)
    rw [e2] at e1
    cases e1
    exact b h1
  · refine key i j (fun s => s.hCentre i j)
      (fun t => t.bombed i j ∧ t.bombed i (j-1) ∧ t.bombed i (j+1))
      (by unfold inGrid; have := hc.1; have := hc.2.1; omega)
      (fun s t h f => hCentre_of_bombsFrom f h)
      (fun s t h f => ⟨bombsFrom_bombed f h.1, bombsFrom_bombed f h.2.1, bombsFrom_bombed f h.2.2⟩)
      (fun s1 t1 h1 e1 => ?_) hc
    obtain ⟨t2, e2, -, -, b⟩ := scanCell_spec s1 (i := i) (j := j)
      (by unfold inGrid; have := hc.1; have := hc.2.1; omega)
    rw [e2] at e1
    cases e1
    exact b h1

/-! ## Claims about the scan -/

/-- C3 fails on the code: in `sceneTopRow` the cells `(0,0)`, `(0,1)`, `(0,2)` all
hold the id 4. A press and release on `(5,5)` raises `activateThree` and changes
nothing else; the call of `ThreeInARow` that follows succeeds and bombs none of the
three cells, since its horizontal test sits inside the guard `i-1 > 0 && i+1 < 10`
on the row and is itself guarded by `j-1 > 0`. -/
theorem ThreeInARow_misses_top_row :
    ∃ s1 s2, Swap (Select sceneTopRow 5 5) 5 5 = some s1 ∧ s1.activateThree = true ∧
      s1.hasRun false 0 0 ∧ ThreeInARow s1 = some s2 ∧
      ¬ s2.bombed 0 0 ∧ ¬ s2.bombed 0 1 ∧ ¬ s2.bombed 0 2 := by
  have h1 : (Swap (Select sceneTopRow 5 5) 5 5).map
      (fun s1 => decide (s1.activateThree = true ∧ s1.hasRunB false 0 0 = true)) = some true := by
    decide
  obtain ⟨s1, e1, p1⟩ := Option.map_eq_some'.mp h1
  have h2 : ((Swap (Select sceneTopRow 5 5) 5 5).bind ThreeInARow).map
      (fun s2 => decide (¬ s2.bombed 0 0 ∧ ¬ s2.bombed 0 1 ∧ ¬ s2.bombed 0 2)) = some true := by
    decide
  rw [e1, Option.some_bind] at h2
  obtain ⟨s2, e2, p2⟩ := Option.map_eq_some'.mp h2
  have q1 := of_decide_eq_true p1
  exact ⟨s1, s2, e1, q1.1, (hasRun_iff s1 false 0 0).mpr q1.2, e2, of_decide_eq_true p2⟩

/-- C4: in a grid where `(4,4)`, `(4,6)` and `(4,7)` hold the type id 2, `Legal(4,4,4,5)`
is true and `Select(4,4); Swap(4,5)` applies the swap: afterwards `(4,5)` holds the
type id 2 and the former occupant of `(4,4)`, and `(4,4)` holds the former type id and
occupant of `(4,5)`; the call of `ThreeInARow` that follows succeeds and bombs
`(4,5)`, `(4,6)` and `(4,7)`. -/
theorem scenario_swap_then_scan (s : Scene) (h44 : s.getID 4 4 = some 2)
    (h46 : s.getID 4 6 = some 2) (h47 : s.getID 4 7 = some 2) :
    Legal s 4 4 4 5 = some true ∧
    ∃ s1, Swap (Select s 4 4) 4 5 = some s1 ∧
      s1.getID 4 5 = some 2 ∧ s1.getID 4 4 = s.getID 4 5 ∧
      s1.slot 4 5 = s.slot 4 4 ∧ s1.slot 4 4 = s.slot 4 5 ∧
      ∃ s2, ThreeInARow s1 = some s2 ∧ s2.bombed 4 5 ∧ s2.bombed 4 6 ∧ s2.bombed 4 7 := by
  have g44 : inGrid 4 4 := by decide
  have g45 : inGrid 4 5 := by decide
  have t44 : s.tid 4 4 = 2 := ((getID_eq_some_iff s 4 4 2).mp h44).2
  have t46 : s.tid 4 6 = 2 := ((getID_eq_some_iff s 4 6 2).mp h46).2
  have t47 : s.tid 4 7 = 2 := ((getID_eq_some_iff s 4 7 2).mp h47).2
  have hl : Legal s 4 4 4 5 = some true := by
    refine (Legal_true_iff s g44 g45).mpr ⟨⟨true, (4, 4), (4, 6), (4, 7)⟩, ?_, ?_⟩
    · simp [blocks]
    · simp [Scene.hit, t44, t46, t47]
  obtain ⟨s1, e1, i45, i44, hother, -, hflag, -⟩ := Swap_of_legal s 4 4 4 5 g44 g45 hl
  have o46 := (hother 4 6 (by decide) (by decide)).2
  have o47 := (hother 4 7 (by decide) (by decide)).2
  have u45 : s1.tid 4 5 = 2 := ((getID_eq_some_iff s1 4 5 2).mp (i45.trans h44)).2
  have u46 : s1.tid 4 6 = 2 := ((getID_eq_some_iff s1 4 6 2).mp (o46.trans h46)).2
  have u47 : s1.tid 4 7 = 2 := ((getID_eq_some_iff s1 4 7 2).mp (o47.trans h47)).2
  obtain ⟨s2, e2, -, -, hb⟩ := ThreeInARow_spec s1 hflag
  have hc : s1.hCentre 4 6 := by
    refine ⟨by decide, by decide, ?_, ?_⟩
    · show s1.tid 4 6 = s1.tid 4 7
      rw [u46, u47]
    · show s1.tid 4 7 = s1.tid 4 5
      rw [u47, u45]
  obtain ⟨b46, b45, b47⟩ := hb 4 6 hc
  have hs : ∀ i j, (s.released.slot i j = s.slot i j) := fun i j => rfl
  obtain ⟨t, ht, hg, -⟩ := exchange_spec s g45 g44
  have e1' : Swap (Select s 4 4) 4 5 = some t.released := by
    rw [Swap_eq s g45 g44, hl, Option.some_bind, if_pos rfl, ht]
    rfl
  rw [e1] at e1'
  cases e1'
  refine ⟨hl, _, e1, i45.trans h44, i44, ?_, ?_, s2, e2, b45, b46, b47⟩
  · show (if inGrid 4 5 then some (t.grid 4 5) else none) = s.slot 4 4
    rw [if_pos g45, hg, slot_of_inGrid s g44]
    simp
  · show (if inGrid 4 4 then some (t.grid 4 4) else none) = s.slot 4 5
    rw [if_pos g44, hg, slot_of_inGrid s g45]
    simp

/-- C4 at `sceneScenario`, where row 4 reads `2 4 2 2` from column 4 to column 7. -/
theorem scenario_swap_then_scan_witness :
    (sceneScenario.getID 4 4 = some 2 ∧ sceneScenario.getID 4 6 = some 2
      ∧ sceneScenario.getID 4 7 = some 2) ∧
    Legal sceneScenario 4 4 4 5 = some true ∧
    ∃ s1, Swap (Select sceneScenario 4 4) 4 5 = some s1 ∧
      s1.getID 4 5 = some 2 ∧ s1.getID 4 4 = sceneScenario.getID 4 5 ∧
      s1.slot 4 5 = sceneScenario.slot 4 4 ∧ s1.slot 4 4 = sceneScenario.slot 4 5 ∧
      ∃ s2, ThreeInARow s1 = some s2 ∧ s2.bombed 4 5 ∧ s2.bombed 4 6 ∧ s2.bombed 4 7 :=
  ⟨⟨by decide, by decide, by decide⟩,
    scenario_swap_then_scan sceneScenario (by decide) (by decide) (by decide)⟩

/-! ## Symmetry -/

theorem blocks_mem_comm {a b c d : Int} (k : Block) :
    k ∈ blocks a b c d ↔ k ∈ blocks c d a b := by
  simp only [blocks, List.mem_cons, List.mem_singleton, List.not_mem_nil, or_false]
  constructor <;>
    (rintro (h | h | h | h | h | h | h | h | h | h | h | h) <;> simp [h])

theorem Legal_comm (s : Scene) {a b c d : Int} (hab : inGrid a b) (hcd : inGrid c d) :
    Legal s a b c d = Legal s c d a b := by
  rw [Legal_of_inGrid s hab hcd, Legal_of_inGrid s hcd hab, Option.some.injEq, Bool.eq_iff_iff,
    List.any_eq_true, List.any_eq_true]
  constructor <;> rintro ⟨k, hk, hh⟩ <;> exact ⟨k, (blocks_mem_comm k).mp hk, hh⟩

theorem exchange_comm (s : Scene) {u v x y : Int} (hu : inGrid u v) (hx : inGrid x y) :
    exchange s u v x y = exchange s x y u v := by
  rw [exchange_eq s hu hx, exchange_eq s hx hu]
  obtain ⟨heap, grid, sx, sy, fl⟩ := s
  simp only [Option.some.injEq, Scene.mk.injEq, and_true]
  constructor
  · funext p
    by_cases h12 : grid x y = grid u v
    · by_cases hp : p = grid u v <;>
        simp [Function.update_apply, hp, Object.SetPosition, h12]
    · have h21 : ¬ grid u v = grid x y := fun h => h12 h.symm
      by_cases hp : p = grid u v
      · simp [Function.update_apply, hp, Object.SetPosition, h12, h21]
      · by_cases hq : p = grid x y <;>
          simp [Function.update_apply, hp, hq, Object.SetPosition, h12, h21]
  · funext i j
    by_cases hi : i = x ∧ j = y
    · obtain ⟨rfl, rfl⟩ := hi
      by_cases huv : i = u ∧ j = v
      · obtain ⟨rfl, rfl⟩ := huv; simp
      · simp [huv]
    · by_cases hj : i = u ∧ j = v
      · obtain ⟨rfl, rfl⟩ := hj; simp [hi]
      · simp [hi, hj]

/-- C18: for in-range coordinates `Legal(a,b,c,d) = Legal(c,d,a,b)`, and a press on
`(a,b)` released on `(c,d)` leaves the same scene (the same occupant, type id and
position in every slot) as a press on `(c,d)` released on `(a,b)`. -/
theorem Legal_symmetric (s : Scene) (a b c d : Int) (hab : inGrid a b) (hcd : inGrid c d) :
    Legal s a b c d = Legal s c d a b ∧
    Swap (Select s a b) c d = Swap (Select s c d) a b ∧
    ∀ t1 t2, Swap (Select s a b) c d = some t1 → Swap (Select s c d) a b = some t2 →
      ∀ i j, t1.slot i j = t2.slot i j ∧ t1.getID i j = t2.getID i j
        ∧ t1.GetPosition i j = t2.GetPosition i j := by
  have hs : Swap (Select s a b) c d = Swap (Select s c d) a b := by
    rw [Swap_eq s hcd hab, Swap_eq s hab hcd, Legal_comm s hab hcd, exchange_comm s hcd hab]
  refine ⟨Legal_comm s hab hcd, hs, fun t1 t2 h1 h2 i j => ?_⟩
  rw [hs, h2] at h1
  cases h1
  exact ⟨rfl, rfl, rfl⟩

/-- C18 at `sceneAdjacent` with the coordinates `(4,4)` and `(4,5)`. -/
theorem Legal_symmetric_witness :
    (inGrid 4 4 ∧ inGrid 4 5) ∧
    Legal sceneAdjacent 4 4 4 5 = Legal sceneAdjacent 4 5 4 4 ∧
    Swap (Select sceneAdjacent 4 4) 4 5 = Swap (Select sceneAdjacent 4 5) 4 4 ∧
    ∀ t1 t2, Swap (Select sceneAdjacent 4 4) 4 5 = some t1 →
      Swap (Select sceneAdjacent 4 5) 4 4 = some t2 →
      ∀ i j, t1.slot i j = t2.slot i j ∧ t1.getID i j = t2.getID i j
        ∧ t1.GetPosition i j = t2.GetPosition i j :=
  ⟨⟨by decide, by decide⟩, Legal_symmetric sceneAdjacent 4 4 4 5 (by decide) (by decide)⟩

/-! ## Completeness of `Legal` away from the edges -/

/-- With the centre `(a,b)` at least three cells from every edge, each line through
it whose two other cells hold the id of `(c,d)` is tested by a block that fires. -/
theorem fills_hit (s : Scene) {a b c d : Int} (ha : 3 ≤ a ∧ a ≤ 7) (hb : 3 ≤ b ∧ b ≤ 7)
    {vertical : Bool} {i j : Int} (hf : s.fills vertical i j (a, b) (s.tid c d)) :
    ∃ k ∈ blocks a b c d, s.hit k = true := by
  obtain ⟨hm, hc⟩ := hf
  cases vertical
  · simp only [line3, Bool.false_eq_true, if_false, List.mem_cons, List.mem_singleton,
      List.not_mem_nil, or_false, Prod.mk.injEq] at hm
    have c0 := hc (i, j) (by simp [line3])
    have c1 := hc (i, j+1) (by simp [line3])
    have c2 := hc (i, j+2) (by simp [line3])
    rcases hm with h | h | h
    · obtain ⟨rfl, rfl⟩ : a = i ∧ b = j := ⟨by omega, by omega⟩
      refine ⟨⟨b+1 < 10 && b+2 < 10, (c, d), (a, b+1), (a, b+2)⟩, by simp [blocks], ?_⟩
      refine (hit_iff s _).mpr ⟨?_, ?_, ?_⟩
      · simp only [Bool.and_eq_true, decide_eq_true_eq]; omega
      · exact (c1.2 (by simp)).symm
      · exact (c1.2 (by simp)).trans (c2.2 (by simp)).symm
    · obtain ⟨rfl, rfl⟩ : a = i ∧ j = b - 1 := ⟨by omega, by omega⟩
      rw [show b - 1 + 2 = b + 1 by omega] at c2
      refine ⟨⟨b-1 > 0 && b+1 < 10, (c, d), (a, b-1), (a, b+1)⟩, by simp [blocks], ?_⟩
      refine (hit_iff s _).mpr ⟨?_, ?_, ?_⟩
      · simp only [Bool.and_eq_true, decide_eq_true_eq]; omega
      · exact (c0.2 (by simp)).symm
      · exact (c0.2 (by simp)).trans (c2.2 (by simp)).symm
    · obtain ⟨rfl, rfl⟩ : a = i ∧ j = b - 2 := ⟨by omega, by omega⟩
      rw [show b - 2 + 1 = b - 1 by omega] at c1
      refine ⟨⟨b-1 > 0 && b-2 > 0, (c, d), (a, b-1), (a, b-2)⟩, by simp [blocks], ?_⟩
      refine (hit_iff s _).mpr ⟨?_, ?_, ?_⟩
      · simp only [Bool.and_eq_true, decide_eq_true_eq]; omega
      · exact (c1.2 (by simp)).symm
      · exact (c1.2 (by simp)).trans (c0.2 (by simp)).symm
  · simp only [line3, if_true, List.mem_cons, List.mem_singleton,
      List.not_mem_nil, or_false, Prod.mk.injEq] at hm
    have c0 := hc (i, j) (by simp [line3])
    have c1 := hc (i+1, j) (by simp [line3])
    have c2 := hc (i+2, j) (by simp [line3])
    rcases hm with h | h | h
    · obtain ⟨rfl, rfl⟩ : a = i ∧ b = j := ⟨by omega, by omega⟩
      refine ⟨⟨a+1 < 10 && a+2 < 10, (c, d), (a+1, b), (a+2, b)⟩, by simp [blocks], ?_⟩
      refine (hit_iff s _).mpr ⟨?_, ?_, ?_⟩
      · simp only [Bool.and_eq_true, decide_eq_true_eq]; omega
      · exact (c1.2 (by simp)).symm
      · exact (c1.2 (by simp)).trans (c2.2 (by simp)).symm
    · obtain ⟨rfl, rfl⟩ : i = a - 1 ∧ b = j := ⟨by omega, by omega⟩
      rw [show a - 1 + 2 = a + 1 by omega] at c2
      refine ⟨⟨a-1 > 0 && a+1 < 10, (c, d), (a-1, b), (a+1, b)⟩, by simp [blocks], ?_⟩
      refine (hit_iff s _).mpr ⟨?_, ?_, ?_⟩
      · simp only [Bool.and_eq_true, decide_eq_true_eq]; omega
      · exact (c0.2 (by simp)).symm
      · exact (c0.2 (by simp)).trans (c2.2 (by simp)).symm
    · obtain ⟨rfl, rfl⟩ : i = a - 2 ∧ b = j := ⟨by omega, by omega⟩
      rw [show a - 2 + 1 = a - 1 by omega] at c1
      refine ⟨⟨a-1 > 0 && a-2 > 0, (c, d), (a-1, b), (a-2, b)⟩, by simp [blocks], ?_⟩
      refine (hit_iff s _).mpr ⟨?_, ?_, ?_⟩
      · simp only [Bool.and_eq_true, decide_eq_true_eq]; omega
      · exact (c1.2 (by simp)).symm
      · exact (c1.2 (by simp)).trans (c0.2 (by simp)).symm

/-- Three equal cells of the exchanged grid that include `(x,y)` are, before the
exchange, a line through `(x,y)` whose two other cells hold the id of `(u,v)`. -/
theorem run_fills (s t : Scene) {u v x y : Int} (hu : inGrid u v) (hx : inGrid x y)
    (ht : exchange s u v x y = some t) {vertical : Bool} {i j : Int}
    (hrun : t.hasRun vertical i j) (hm : (x, y) ∈ line3 vertical i j) :
    s.fills vertical i j (x, y) (s.tid u v) := by
  obtain ⟨ty, hty⟩ := hrun
  have htid := exchange_tid s t hu hx ht
  have hxy : s.tid u v = ty := by
    have h := ((getID_eq_some_iff t x y ty).mp (hty (x, y) hm)).2
    rw [htid, if_pos ⟨rfl, rfl⟩] at h
    exact h
  refine ⟨hm, fun p hp => ?_⟩
  obtain ⟨hin, hp'⟩ := (getID_eq_some_iff t p.1 p.2 ty).mp (hty p hp)
  refine ⟨hin, fun hne => ?_⟩
  have h1 : ¬ (p.1 = x ∧ p.2 = y) := fun e => hne (Prod.ext e.1 e.2)
  rw [htid, if_neg h1] at hp'
  by_cases h2 : p.1 = u ∧ p.2 = v
  · rw [h2.1, h2.2]
  · rw [if_neg h2] at hp'
    rw [hp', hxy]

/-- C17: when `a`, `b`, `c`, `d` all lie in `[3,7]` and the grid obtained by the
exchange of `(a,b)` and `(c,d)` has three consecutive equal cells in one row or column
that include `(a,b)` or `(c,d)`, `Legal(a,b,c,d)` returns true; the two coordinates may
be the same cell, adjacent, or two apart in one line. -/
theorem Legal_complete_interior (s : Scene) (a b c d : Int)
    (ha : 3 ≤ a ∧ a ≤ 7) (hb : 3 ≤ b ∧ b ≤ 7) (hc : 3 ≤ c ∧ c ≤ 7) (hd : 3 ≤ d ∧ d ≤ 7)
    (t : Scene) (ht : exchange s c d a b = some t)
    (hr : t.runThrough a b ∨ t.runThrough c d) : Legal s a b c d = some true := by
  have hab : inGrid a b := by unfold inGrid; omega
  have hcd : inGrid c d := by unfold inGrid; omega
  refine (Legal_true_iff s hab hcd).mpr ?_
  rcases hr with ⟨vertical, i, j, hrun, hm⟩ | ⟨vertical, i, j, hrun, hm⟩
  · exact fills_hit s ha hb (run_fills s t hcd hab ht hrun hm)
  · rw [exchange_comm s hcd hab] at ht
    obtain ⟨k, hk, hh⟩ := fills_hit s hc hd (run_fills s t hab hcd ht hrun hm)
    exact ⟨k, (blocks_mem_comm k).mp hk, hh⟩

/-- C17 at `sceneScenario`: `(4,4)` and `(4,5)` are adjacent, and after their exchange
row 4 holds the id 2 in columns 5 to 7. -/
theorem Legal_complete_interior_witness :
    ((3 ≤ (4 : Int) ∧ (4 : Int) ≤ 7) ∧ (3 ≤ (5 : Int) ∧ (5 : Int) ≤ 7)) ∧
    ∃ t, exchange sceneScenario 4 5 4 4 = some t ∧ t.runThrough 4 5 ∧
      Legal sceneScenario 4 4 4 5 = some true := by
  obtain ⟨t, ht, -⟩ := @exchange_spec sceneScenario 4 5 4 4 (by decide) (by decide)
  have hv : (exchange sceneScenario 4 5 4 4).map (fun t => t.runThroughB 4 5) = some true := by
    decide
  rw [ht, Option.map_some', Option.some.injEq] at hv
  have hr : t.runThrough 4 5 := (runThrough_iff t 4 5).mpr hv
  exact ⟨⟨by decide, by decide⟩, t, ht, hr,
    Legal_complete_interior sceneScenario 4 4 4 5 (by decide) (by decide) (by decide)
      (by decide) t ht (Or.inr hr)⟩

/-! ## Claims about the release -/

/-- What a release does to the grid, in range: `Legal` decides, the two occupants are
exchanged when it says true, no slot changes when it says false, and the flag is
raised and the selection set to `(0,0)` in both cases. -/
theorem Swap_cases (s : Scene) {x y u v : Int} (hx : inGrid x y) (hu : inGrid u v) :
    ∃ t ok, Swap (Select s x y) u v = some t ∧ Legal s x y u v = some ok ∧
      (ok = true → t.slot u v = s.slot x y ∧ t.slot x y = s.slot u v) ∧
      (ok = false → t.heap = s.heap ∧ t.grid = s.grid) ∧
      t.activateThree = true ∧ t.x = 0 ∧ t.y = 0 := by
  obtain ⟨e, he, hg, -⟩ := exchange_spec s hu hx
  have hl := Legal_of_inGrid s hx hu
  cases hok : (blocks x y u v).any s.hit
  · rw [hok] at hl
    refine ⟨s.released, false, ?_, hl, fun h => absurd h (by decide), fun _ => ⟨rfl, rfl⟩,
      rfl, rfl, rfl⟩
    rw [Swap_eq s hu hx, hl]
    rfl
  · rw [hok] at hl
    refine ⟨e.released, true, ?_, hl, fun _ => ⟨?_, ?_⟩, fun h => absurd h (by decide),
      rfl, rfl, rfl⟩
    · rw [Swap_eq s hu hx, hl, Option.some_bind, if_pos rfl, he]
      rfl
    · show (if inGrid u v then some (e.grid u v) else none) = s.slot x y
      rw [if_pos hu, hg, slot_of_inGrid s hx]
      by_cases h : u = x ∧ v = y
      · rw [if_pos h, h.1, h.2]
      · rw [if_neg h, if_pos ⟨rfl, rfl⟩]
    · show (if inGrid x y then some (e.grid x y) else none) = s.slot u v
      rw [if_pos hx, hg, slot_of_inGrid s hu, if_pos ⟨rfl, rfl⟩]

/-- C11 fails on the code: in `sceneStale` the cells `(4,6)` and `(4,7)` hold the id 0
of `(0,0)` and `(4,5)` holds 4. A press and release on `(5,5)` is an illegal swap; it
sets the selection to `x = NULL`, `y = NULL`, that is to `(0,0)`. A second release on
`(4,5)`, with no press in between, is then decided by `Legal(0,0,4,5)`, which is true,
and exchanges the occupants of `(0,0)` and `(4,5)`. -/
theorem second_release_swaps_origin :
    ∃ s1 s2, Swap (Select sceneStale 5 5) 5 5 = some s1 ∧ s1.x = 0 ∧ s1.y = 0 ∧
      Legal s1 0 0 4 5 = some true ∧ Swap s1 4 5 = some s2 ∧
      s2.slot 0 0 = s1.slot 4 5 ∧ s2.slot 0 0 ≠ s1.slot 0 0 ∧
      s1.getID 0 0 = some 0 ∧ s2.getID 0 0 = some 4 := by
  have h1 : (Swap (Select sceneStale 5 5) 5 5).map
      (fun s1 => decide (s1.x = 0 ∧ s1.y = 0 ∧ Legal s1 0 0 4 5 = some true
        ∧ s1.getID 0 0 = some 0)) = some true := by
    decide
  obtain ⟨s1, e1, p1⟩ := Option.map_eq_some'.mp h1
  have h2 : ((Swap (Select sceneStale 5 5) 5 5).bind fun s1 => (Swap s1 4 5).map
      (fun s2 => decide (s2.slot 0 0 = s1.slot 4 5 ∧ s2.slot 0 0 ≠ s1.slot 0 0
        ∧ s2.getID 0 0 = some 4))) = some true := by
    decide
  rw [e1, Option.some_bind] at h2
  obtain ⟨s2, e2, p2⟩ := Option.map_eq_some'.mp h2
  have q1 := of_decide_eq_true p1
  have q2 := of_decide_eq_true p2
  exact ⟨s1, s2, e1, q1.1, q1.2.1, q1.2.2.1, e2, q2.1, q2.2.1, q1.2.2.2, q2.2.2⟩

/-- C13, as stated, fails: in `sceneScenario` the cells `(4,6)`, `(4,7)` and `(0,1)`
hold the id 2. With `(4,5)` selected, a release on `(0,1)` is legal and exchanges the
occupants of `(4,5)` and `(0,1)`, which are four rows and four columns apart. -/
theorem Swap_far_cells_counterexample :
    inGrid 4 5 ∧ inGrid 0 1 ∧
    ∃ t, Swap (Select sceneScenario 4 5) 0 1 = some t ∧
      t.slot 0 1 = sceneScenario.slot 4 5 ∧ t.slot 4 5 = sceneScenario.slot 0 1 ∧
      sceneScenario.slot 4 5 ≠ sceneScenario.slot 0 1 ∧
      ¬ ((4 - 0 : Int).natAbs + (5 - 1 : Int).natAbs = 1) := by
  have h1 : (Swap (Select sceneScenario 4 5) 0 1).map
      (fun t => decide (t.slot 0 1 = sceneScenario.slot 4 5
        ∧ t.slot 4 5 = sceneScenario.slot 0 1)) = some true := by
    decide
  obtain ⟨t, e1, p1⟩ := Option.map_eq_some'.mp h1
  have q1 := of_decide_eq_true p1
  exact ⟨by decide, by decide, t, e1, q1.1, q1.2, by decide, by decide⟩

/-- C13, amended: whether `Swap(u,v)` exchanges the occupants of `(x,y)` and `(u,v)`
is decided by `Legal(x,y,u,v)` alone, which does not look at the distance between the
two cells: when it returns true the two occupants are exchanged, when it returns false
no slot changes. -/
theorem Swap_exchanges_iff_legal (s : Scene) (x y u v : Int)
    (hx : inGrid x y) (hu : inGrid u v) :
    ∃ t ok, Swap (Select s x y) u v = some t ∧ Legal s x y u v = some ok ∧
      (ok = true → t.slot u v = s.slot x y ∧ t.slot x y = s.slot u v) ∧
      (ok = false → ∀ i j, t.slot i j = s.slot i j) := by
  obtain ⟨t, ok, h1, h2, h3, h4, -⟩ := Swap_cases s hx hu
  refine ⟨t, ok, h1, h2, h3, fun h i j => ?_⟩
  unfold Scene.slot
  rw [(h4 h).2]

/-- C13, amended, at `sceneScenario`: selection `(4,5)`, release on `(0,1)`. -/
theorem Swap_exchanges_iff_legal_witness :
    (inGrid 4 5 ∧ inGrid 0 1) ∧
    ∃ t ok, Swap (Select sceneScenario 4 5) 0 1 = some t ∧
      Legal sceneScenario 4 5 0 1 = some ok ∧
      (ok = true → t.slot 0 1 = sceneScenario.slot 4 5 ∧ t.slot 4 5 = sceneScenario.slot 0 1) ∧
      (ok = false → ∀ i j, t.slot i j = sceneScenario.slot i j) :=
  ⟨⟨by decide, by decide⟩, Swap_exchanges_iff_legal sceneScenario 4 5 0 1 (by decide) (by decide)⟩

/-! ## The calls of `Bomb` made by the scan -/

theorem Bomb_bombAt (s : Scene) {u v : Int} (hu : inGrid u v) :
    Bomb s u v = some (s.bombAt (u, v)) := Bomb_eq s hu

theorem BombLog3 (st : Scene × List (Int × Int)) {a b c : Int × Int}
    (ha : inGrid a.1 a.2) (hb : inGrid b.1 b.2) (hc : inGrid c.1 c.2) :
    ((BombLog st a.1 a.2).bind fun t1 => (BombLog t1 b.1 b.2).bind fun t2 =>
      BombLog t2 c.1 c.2) = some ([a, b, c].foldl Scene.bombAt st.1, st.2 ++ [a, b, c]) := by
  simp [BombLog, Bomb_bombAt, ha, hb, hc]

theorem Bomb3 (s : Scene) {a b c : Int × Int}
    (ha : inGrid a.1 a.2) (hb : inGrid b.1 b.2) (hc : inGrid c.1 c.2) :
    ((Bomb s a.1 a.2).bind fun t1 => (Bomb t1 b.1 b.2).bind fun t2 =>
      Bomb t2 c.1 c.2) = some ([a, b, c].foldl Scene.bombAt s) := by
  simp [Bomb_bombAt, ha, hb, hc]

theorem bombAt_tid (s : Scene) (p : Int × Int) (i j : Int) :
    (s.bombAt p).tid i j = s.tid i j := by
  unfold Scene.tid Scene.bombAt
  simp only [Function.update_apply]
  split
  · next h => rw [h]; rfl
  · rfl

theorem foldl_bombAt_tid (l : List (Int × Int)) (s : Scene) (i j : Int) :
    (l.foldl Scene.bombAt s).tid i j = s.tid i j := by
  induction l generalizing s with
  | nil => rfl
  | cons p l ih => rw [List.foldl_cons, ih, bombAt_tid]

theorem stageLog (st : Scene × List (Int × Int)) {a b c : Int × Int}
    (ha : inGrid a.1 a.2) (hb : inGrid b.1 b.2) (hc : inGrid c.1 c.2) (ok : Bool) :
    (if ok = true then
        (BombLog st a.1 a.2).bind fun t1 => (BombLog t1 b.1 b.2).bind fun t2 =>
          BombLog t2 c.1 c.2
      else some st) =
      some ((if ok = true then [a, b, c] else []).foldl Scene.bombAt st.1,
        st.2 ++ if ok = true then [a, b, c] else []) := by
  cases ok
  · simp
  · simpa using BombLog3 st ha hb hc

theorem vCalls_eq (s : Scene) {i j : Int} (hij : inGrid i j) (hg : i - 1 > 0 ∧ i + 1 < 10) :
    s.vCalls i j = if (decide (s.tid i j = s.tid (i+1) j)
        && decide (s.tid (i+1) j = s.tid (i-1) j)) = true
      then [(i, j), (i-1, j), (i+1, j)] else [] := by
  unfold inGrid at hij
  unfold Scene.vCalls Scene.vCentre
  simp only [Bool.and_eq_true, decide_eq_true_eq]
  have h1 : (2 ≤ i ∧ i ≤ 8) := by omega
  have h2 : (0 ≤ j ∧ j ≤ 9) := by omega
  simp only [h1, h2, and_self, true_and]

theorem hCalls_eq (s : Scene) {i j : Int} (hg : i - 1 > 0 ∧ i + 1 < 10)
    (hg2 : j - 1 > 0 ∧ j + 1 < 10) :
    s.hCalls i j = if (decide (s.tid i j = s.tid i (j+1))
        && decide (s.tid i (j+1) = s.tid i (j-1))) = true
      then [(i, j), (i, j-1), (i, j+1)] else [] := by
  unfold Scene.hCalls Scene.hCentre
  simp only [Bool.and_eq_true, decide_eq_true_eq]
  have h1 : (2 ≤ i ∧ i ≤ 8) := by omega
  have h2 : (2 ≤ j ∧ j ≤ 8) := by omega
  simp only [h1, h2, and_self, true_and]

theorem scanCellLog_eq (st : Scene × List (Int × Int)) {i j : Int} (hij : inGrid i j) :
    scanCellLog st i j =
      some ((st.1.cellCalls i j).foldl Scene.bombAt st.1, st.2 ++ st.1.cellCalls i j) := by
  have hij' := hij
  unfold inGrid at hij'
  by_cases hg : i - 1 > 0 ∧ i + 1 < 10
  · have g0 : inGrid (i, j).1 (i, j).2 := by unfold inGrid; simp only []; omega
    have g1 : inGrid (i-1, j).1 (i-1, j).2 := by unfold inGrid; simp only []; omega
    have g2 : inGrid (i+1, j).1 (i+1, j).2 := by unfold inGrid; simp only []; omega
    simp only [scanCellLog, hg, and_self, if_true, Option.bind_eq_bind, Option.pure_def]
    rw [bind_ite_bind, same3_of_inGrid st.1 g0 g2 g1, Option.some_bind]
    have e1 := stageLog st g0 g1 g2 (decide (st.1.tid i j = st.1.tid (i+1) j)
        && decide (st.1.tid (i+1) j = st.1.tid (i-1) j))
    rw [← vCalls_eq st.1 hij hg] at e1
    simp only [] at e1 ⊢
    rw [e1, Option.some_bind]
    by_cases hg2 : j - 1 > 0 ∧ j + 1 < 10
    · have k1 : inGrid (i, j-1).1 (i, j-1).2 := by unfold inGrid; simp only []; omega
      have k2 : inGrid (i, j+1).1 (i, j+1).2 := by unfold inGrid; simp only []; omega
      rw [if_pos hg2, same3_of_inGrid _ g0 k2 k1, Option.some_bind]
      have e2 := stageLog ((st.1.vCalls i j).foldl Scene.bombAt st.1, st.2 ++ st.1.vCalls i j)
        g0 k1 k2 (decide (st.1.tid i j = st.1.tid i (j+1))
          && decide (st.1.tid i (j+1) = st.1.tid i (j-1)))
      rw [← hCalls_eq st.1 hg hg2] at e2
      simp only [foldl_bombAt_tid] at e2 ⊢
      rw [e2]
      simp [Scene.cellCalls, List.foldl_append, List.append_assoc]
    · have hh : st.1.hCalls i j = [] := by
        unfold Scene.hCalls Scene.hCentre
        rw [if_neg]
        intro h
        exact hg2 (by omega)
      rw [if_neg hg2]
      simp [Scene.cellCalls, hh]
  · have hv : st.1.vCalls i j = [] := by
      unfold Scene.vCalls Scene.vCentre
      rw [if_neg]
      intro h
      exact hg (by omega)
    have hh : st.1.hCalls i j = [] := by
      unfold Scene.hCalls Scene.hCentre
      rw [if_neg]
      intro h
      exact hg (by omega)
    simp only [scanCellLog, hg, if_false, Scene.cellCalls, hv, hh, List.append_nil, List.foldl_nil]
    rfl

theorem stage (s : Scene) {a b c : Int × Int}
    (ha : inGrid a.1 a.2) (hb : inGrid b.1 b.2) (hc : inGrid c.1 c.2) (ok : Bool) :
    (if ok = true then
        (Bomb s a.1 a.2).bind fun t1 => (Bomb t1 b.1 b.2).bind fun t2 => Bomb t2 c.1 c.2
      else some s) =
      some ((if ok = true then [a, b, c] else []).foldl Scene.bombAt s) := by
  cases ok
  · simp
  · simpa using Bomb3 s ha hb hc

/-- Closed form of one step of the scan: the cells of the accepted tests are bombed,
the vertical ones first. -/
theorem scanCell_eq (s : Scene) {i j : Int} (hij : inGrid i j) :
    scanCell s i j = some ((s.cellCalls i j).foldl Scene.bombAt s) := by
  have hij' := hij
  unfold inGrid at hij'
  by_cases hg : i - 1 > 0 ∧ i + 1 < 10
  · have g0 : inGrid (i, j).1 (i, j).2 := by unfold inGrid; simp only []; omega
    have g1 : inGrid (i-1, j).1 (i-1, j).2 := by unfold inGrid; simp only []; omega
    have g2 : inGrid (i+1, j).1 (i+1, j).2 := by unfold inGrid; simp only []; omega
    simp only [scanCell, hg, and_self, if_true, Option.bind_eq_bind, Option.pure_def]
    rw [bind_ite_bind, same3_of_inGrid s g0 g2 g1, Option.some_bind]
    have e1 := stage s g0 g1 g2 (decide (s.tid i j = s.tid (i+1) j)
        && decide (s.tid (i+1) j = s.tid (i-1) j))
    rw [← vCalls_eq s hij hg] at e1
    simp only [] at e1 ⊢
    rw [e1, Option.some_bind]
    by_cases hg2 : j - 1 > 0 ∧ j + 1 < 10
    · have k1 : inGrid (i, j-1).1 (i, j-1).2 := by unfold inGrid; simp only []; omega
      have k2 : inGrid (i, j+1).1 (i, j+1).2 := by unfold inGrid; simp only []; omega
      rw [if_pos hg2, same3_of_inGrid _ g0 k2 k1, Option.some_bind]
      have e2 := stage ((s.vCalls i j).foldl Scene.bombAt s)
        g0 k1 k2 (decide (s.tid i j = s.tid i (j+1))
          && decide (s.tid i (j+1) = s.tid i (j-1)))
      rw [← hCalls_eq s hg hg2] at e2
      simp only [foldl_bombAt_tid] at e2 ⊢
      rw [e2]
      simp [Scene.cellCalls, List.foldl_append]
    · have hh : s.hCalls i j = [] := by
        unfold Scene.hCalls Scene.hCentre
        rw [if_neg]
        intro h
        exact hg2 (by omega)
      rw [if_neg hg2]
      simp [Scene.cellCalls, hh]
  · have hv : s.vCalls i j = [] := by
      unfold Scene.vCalls Scene.vCentre
      rw [if_neg]
      intro h
      exact hg (by omega)
    have hh : s.hCalls i j = [] := by
      unfold Scene.hCalls Scene.hCentre
      rw [if_neg]
      intro h
      exact hg (by omega)
    simp only [scanCell, hg, if_false, Scene.cellCalls, hv, hh, List.append_nil, List.foldl_nil]
    rfl

theorem cellCalls_foldl_bombAt (l : List (Int × Int)) (s : Scene) (i j : Int) :
    (l.foldl Scene.bombAt s).cellCalls i j = s.cellCalls i j := by
  unfold Scene.cellCalls Scene.vCalls Scene.hCalls Scene.vCentre Scene.hCentre
  simp only [foldl_bombAt_tid]

theorem rowCalls_foldl_bombAt (l : List (Int × Int)) (s : Scene) (i : Int) (cols : List Nat) :
    (l.foldl Scene.bombAt s).rowCalls i cols = s.rowCalls i cols := by
  unfold Scene.rowCalls
  simp only [cellCalls_foldl_bombAt]

/-- A loop whose step at `a` bombs the cells `c s a`, a list that bombing does not
change, bombs the concatenation of these lists (scene and list of calls). -/
theorem foldlM_callsLog {α : Type} (f : Scene × List (Int × Int) → α → Option (Scene × List (Int × Int)))
    (c : Scene → α → List (Int × Int)) (l : List α)
    (hf : ∀ st a, a ∈ l → f st a = some ((c st.1 a).foldl Scene.bombAt st.1, st.2 ++ c st.1 a))
    (hc : ∀ s cells a, c (List.foldl Scene.bombAt s cells) a = c s a)
    (st : Scene × List (Int × Int)) :
    l.foldlM f st = some ((l.flatMap (c st.1)).foldl Scene.bombAt st.1,
      st.2 ++ l.flatMap (c st.1)) := by
  induction l generalizing st with
  | nil => simp
  | cons a l ih =>
    rw [List.foldlM_cons, hf st a (List.mem_cons_self _ _)]
    show List.foldlM f _ l = _
    rw [ih (fun st' a' ha' => hf st' a' (List.mem_cons_of_mem _ ha'))]
    have hc' : ∀ s cells, c (List.foldl Scene.bombAt s cells) = c s :=
      fun s cells => funext (hc s cells)
    simp only [hc', List.flatMap_cons, List.foldl_append, List.append_assoc]

/-- The same for the scene alone. -/
theorem foldlM_calls {α : Type} (f : Scene → α → Option Scene)
    (c : Scene → α → List (Int × Int)) (l : List α)
    (hf : ∀ s a, a ∈ l → f s a = some ((c s a).foldl Scene.bombAt s))
    (hc : ∀ s cells a, c (List.foldl Scene.bombAt s cells) a = c s a) (s : Scene) :
    l.foldlM f s = some ((l.flatMap (c s)).foldl Scene.bombAt s) := by
  induction l generalizing s with
  | nil => simp
  | cons a l ih =>
    rw [List.foldlM_cons, hf s a (List.mem_cons_self _ _)]
    show List.foldlM f _ l = _
    rw [ih (fun s' a' ha' => hf s' a' (List.mem_cons_of_mem _ ha'))]
    have hc' : ∀ s cells, c (List.foldl Scene.bombAt s cells) = c s :=
      fun s cells => funext (hc s cells)
    simp only [hc', List.flatMap_cons, List.foldl_append]

theorem scanRowLog_eq (st : Scene × List (Int × Int)) {i : Nat} (hi : i ∈ List.range 10) :
    scanRowLog st (i : Int) = some ((st.1.rowCalls i (List.range 10)).foldl Scene.bombAt st.1,
      st.2 ++ st.1.rowCalls i (List.range 10)) :=
  foldlM_callsLog (fun t (j : Nat) => scanCellLog t (i : Int) (j : Int))
    (fun s (j : Nat) => s.cellCalls (i : Int) (j : Int)) (List.range 10)
    (fun st' _ hj => scanCellLog_eq st' (inGrid_of_range hi hj))
    (fun s cells _ => cellCalls_foldl_bombAt cells s _ _) st

theorem scanRow_eq (s : Scene) {i : Nat} (hi : i ∈ List.range 10) :
    scanRow s (i : Int) = some ((s.rowCalls i (List.range 10)).foldl Scene.bombAt s) :=
  foldlM_calls (fun t (j : Nat) => scanCell t (i : Int) (j : Int))
    (fun s (j : Nat) => s.cellCalls (i : Int) (j : Int)) (List.range 10)
    (fun s' _ hj => scanCell_eq s' (inGrid_of_range hi hj))
    (fun s cells _ => cellCalls_foldl_bombAt cells s _ _) s

/-- Closed form of the scan with its list of calls. -/
theorem ThreeInARowLog_eq (s : Scene) :
    ThreeInARowLog s = some
      (if s.activateThree = true then
        ((s.allCalls (List.range 10)).foldl Scene.bombAt s, s.allCalls (List.range 10))
      else (s, [])) := by
  unfold ThreeInARowLog
  by_cases ha : s.activateThree = true
  · rw [if_pos ha, if_pos ha]
    have h := foldlM_callsLog (fun t (i : Nat) => scanRowLog t (i : Int))
      (fun s (i : Nat) => s.rowCalls (i : Int) (List.range 10)) (List.range 10)
      (fun st' _ hi => scanRowLog_eq st' hi)
      (fun s cells _ => rowCalls_foldl_bombAt cells s _ _) (s, [])
    simpa [Scene.allCalls] using h
  · rw [if_neg ha, if_neg ha]
    rfl

/-- Closed form of the scan: the scene of `ThreeInARowLog`. -/
theorem ThreeInARow_eq (s : Scene) :
    ThreeInARow s = (ThreeInARowLog s).map Prod.fst := by
  rw [ThreeInARowLog_eq]
  unfold ThreeInARow
  by_cases ha : s.activateThree = true
  · rw [if_pos ha, if_pos ha]
    have h := foldlM_calls (fun t (i : Nat) => scanRow t (i : Int))
      (fun s (i : Nat) => s.rowCalls (i : Int) (List.range 10)) (List.range 10)
      (fun s' _ hi => scanRow_eq s' hi)
      (fun s cells _ => rowCalls_foldl_bombAt cells s _ _) s
    simpa [Scene.allCalls] using h
  · rw [if_neg ha, if_neg ha]
    rfl

theorem mem_allCalls (s : Scene) (p : Int × Int) :
    p ∈ s.allCalls (List.range 10) ↔
      ∃ i j, (s.vCentre i j ∧ p ∈ [(i, j), (i-1, j), (i+1, j)])
        ∨ (s.hCentre i j ∧ p ∈ [(i, j), (i, j-1), (i, j+1)]) := by
  simp only [Scene.allCalls, Scene.rowCalls, Scene.cellCalls, Scene.vCalls, Scene.hCalls,
    List.mem_flatMap, List.mem_append, List.mem_range]
  constructor
  · rintro ⟨i, -, j, -, h | h⟩
    · by_cases hc : s.vCentre (i : Int) (j : Int)
      · rw [if_pos hc] at h
        exact ⟨i, j, Or.inl ⟨hc, h⟩⟩
      · rw [if_neg hc] at h
        exact absurd h (List.not_mem_nil _)
    · by_cases hc : s.hCentre (i : Int) (j : Int)
      · rw [if_pos hc] at h
        exact ⟨i, j, Or.inr ⟨hc, h⟩⟩
      · rw [if_neg hc] at h
        exact absurd h (List.not_mem_nil _)
  · rintro ⟨i, j, ⟨hc, h⟩ | ⟨hc, h⟩⟩
    · have h1 := hc.1
      have h2 := hc.2.1
      have ei : ((i.toNat : Nat) : Int) = i := by omega
      have ej : ((j.toNat : Nat) : Int) = j := by omega
      refine ⟨i.toNat, by omega, j.toNat, by omega, Or.inl ?_⟩
      rw [ei, ej, if_pos hc]
      exact h
    · have h1 := hc.1
      have h2 := hc.2.1
      have ei : ((i.toNat : Nat) : Int) = i := by omega
      have ej : ((j.toNat : Nat) : Int) = j := by omega
      refine ⟨i.toNat, by omega, j.toNat, by omega, Or.inr ?_⟩
      rw [ei, ej, if_pos hc]
      exact h

theorem vCentre_hasRun (s : Scene) {i j : Int} (hc : s.vCentre i j) :
    s.hasRun true (i-1) j ∧ line3 true (i-1) j = [(i-1, j), (i, j), (i+1, j)] := by
  obtain ⟨h1, h2, e1, e2⟩ := hc
  have hl : line3 true (i-1) j = [(i-1, j), (i, j), (i+1, j)] := by
    simp only [line3, if_true]
    rw [show i - 1 + 1 = i by omega, show i - 1 + 2 = i + 1 by omega]
  refine ⟨⟨s.tid i j, fun p hp => ?_⟩, hl⟩
  rw [hl] at hp
  simp only [List.mem_cons, List.mem_singleton, List.not_mem_nil, or_false] at hp
  rcases hp with rfl | rfl | rfl <;> rw [getID_eq_some_iff] <;>
    refine ⟨by unfold inGrid; simp only []; omega, ?_⟩
  · exact (e1.trans e2).symm
  · rfl
  · exact e1.symm

theorem hCentre_hasRun (s : Scene) {i j : Int} (hc : s.hCentre i j) :
    s.hasRun false i (j-1) ∧ line3 false i (j-1) = [(i, j-1), (i, j), (i, j+1)] := by
  obtain ⟨h1, h2, e1, e2⟩ := hc
  have hl : line3 false i (j-1) = [(i, j-1), (i, j), (i, j+1)] := by
    simp only [line3, Bool.false_eq_true, if_false]
    rw [show j - 1 + 1 = j by omega, show j - 1 + 2 = j + 1 by omega]
  refine ⟨⟨s.tid i j, fun p hp => ?_⟩, hl⟩
  rw [hl] at hp
  simp only [List.mem_cons, List.mem_singleton, List.not_mem_nil, or_false] at hp
  rcases hp with rfl | rfl | rfl <;> rw [getID_eq_some_iff] <;>
    refine ⟨by unfold inGrid; simp only []; omega, ?_⟩
  · exact (e1.trans e2).symm
  · rfl
  · exact e1.symm

theorem foldl_bombAt_grid (l : List (Int × Int)) (s : Scene) :
    (l.foldl Scene.bombAt s).grid = s.grid := by
  induction l generalizing s with
  | nil => rfl
  | cons p l ih => rw [List.foldl_cons, ih]; rfl

/-- Bombing the cells of a list leaves alone every object that is not the occupant of
one of them. -/
theorem foldl_bombAt_frame (l : List (Int × Int)) (s : Scene) (a : Nat)
    (h : ∀ p ∈ l, s.grid p.1 p.2 ≠ a) : (l.foldl Scene.bombAt s).heap a = s.heap a := by
  induction l generalizing s with
  | nil => rfl
  | cons p l ih =>
    rw [List.foldl_cons, ih]
    · have hp := h p (List.mem_cons_self _ _)
      simp [Scene.bombAt, Function.update_apply, Ne.symm hp]
    · intro q hq
      exact h q (List.mem_cons_of_mem _ hq)

/-! ## Claims about the scan and its flag -/

/-- C15: one call of `ThreeInARow` succeeds (no index it uses leaves `[0,9]`), and
every cell on which it calls `Bomb` is a cell of the grid that belongs to three
consecutive cells of one row or one column with the same type id, all three of which
it bombs (the centre and its two neighbours); the objects that are not occupants of
such cells are left as they were, and so is the grid. -/
theorem scan_sound (s : Scene) :
    ∃ t log, ThreeInARowLog s = some (t, log) ∧ ThreeInARow s = some t ∧
      (∀ p ∈ log, inGrid p.1 p.2 ∧ ∃ vertical i j, s.hasRun vertical i j
        ∧ p ∈ line3 vertical i j
        ∧ ∀ q ∈ line3 vertical i j, q ∈ log ∧ t.bombed q.1 q.2) ∧
      (∀ a, (∀ p ∈ log, s.grid p.1 p.2 ≠ a) → t.heap a = s.heap a) ∧
      t.grid = s.grid := by
  have hlog := ThreeInARowLog_eq s
  have hplain := ThreeInARow_eq s
  by_cases ha : s.activateThree = true
  · rw [if_pos ha] at hlog
    rw [hlog, Option.map_some'] at hplain
    obtain ⟨t', et', -, hv, hh⟩ := ThreeInARow_spec s ha
    rw [hplain, Option.some.injEq] at et'
    refine ⟨_, _, hlog, hplain, fun p hp => ?_, fun a h => foldl_bombAt_frame _ s a h,
      foldl_bombAt_grid _ s⟩
    obtain ⟨i, j, ⟨hc, hm⟩ | ⟨hc, hm⟩⟩ := (mem_allCalls s p).mp hp
    · obtain ⟨hrun, hl⟩ := vCentre_hasRun s hc
      have hpl : p ∈ line3 true (i-1) j := by
        rw [hl]
        simp only [List.mem_cons, List.mem_singleton, List.not_mem_nil, or_false] at hm ⊢
        tauto
      obtain ⟨ty, hty⟩ := hrun
      refine ⟨((getID_eq_some_iff s p.1 p.2 ty).mp (hty p hpl)).1, true, i-1, j, ⟨ty, hty⟩, hpl,
        fun q hq => ?_⟩
      rw [hl] at hq
      obtain ⟨b0, b1, b2⟩ := hv i j hc
      rw [← et'] at b0 b1 b2
      refine ⟨(mem_allCalls s q).mpr ⟨i, j, Or.inl ⟨hc, ?_⟩⟩, ?_⟩
      · simp only [List.mem_cons, List.mem_singleton, List.not_mem_nil, or_false] at hq ⊢
        tauto
      · simp only [List.mem_cons, List.mem_singleton, List.not_mem_nil, or_false] at hq
        rcases hq with rfl | rfl | rfl
        · exact b1
        · exact b0
        · exact b2
    · obtain ⟨hrun, hl⟩ := hCentre_hasRun s hc
      have hpl : p ∈ line3 false i (j-1) := by
        rw [hl]
        simp only [List.mem_cons, List.mem_singleton, List.not_mem_nil, or_false] at hm ⊢
        tauto
      obtain ⟨ty, hty⟩ := hrun
      refine ⟨((getID_eq_some_iff s p.1 p.2 ty).mp (hty p hpl)).1, false, i, j-1, ⟨ty, hty⟩, hpl,
        fun q hq => ?_⟩
      rw [hl] at hq
      obtain ⟨b0, b1, b2⟩ := hh i j hc
      rw [← et'] at b0 b1 b2
      refine ⟨(mem_allCalls s q).mpr ⟨i, j, Or.inr ⟨hc, ?_⟩⟩, ?_⟩
      · simp only [List.mem_cons, List.mem_singleton, List.not_mem_nil, or_false] at hq ⊢
        tauto
      · simp only [List.mem_cons, List.mem_singleton, List.not_mem_nil, or_false] at hq
        rcases hq with rfl | rfl | rfl
        · exact b1
        · exact b0
        · exact b2
  · rw [if_neg ha] at hlog
    rw [hlog, Option.map_some'] at hplain
    exact ⟨s, [], hlog, hplain, fun p hp => absurd hp (List.not_mem_nil _), fun _ _ => rfl, rfl⟩

/-- C16: with `activateThree` raised, the cells on which one call of `ThreeInARow`
calls `Bomb` are exactly the cells `(i-1,j)`, `(i,j)`, `(i+1,j)` of the centres with
row `i` in `[2,8]`, column `j` in `[0,9]` and equal ids above and below, and the cells
`(i,j-1)`, `(i,j)`, `(i,j+1)` of the centres with row and column in `[2,8]` and equal ids
left and right. The step for a centre whose row is outside `[2,8]` calls `Bomb` on
nothing, and the step for a centre whose column is outside `[2,8]` makes no horizontal
call. -/
theorem scan_region (s : Scene) (ha : s.activateThree = true) :
    ∃ t log, ThreeInARowLog s = some (t, log) ∧ ThreeInARow s = some t ∧
      (∀ p, p ∈ log ↔ ∃ i j,
        (((2 ≤ i ∧ i ≤ 8) ∧ (0 ≤ j ∧ j ≤ 9) ∧
            s.tid i j = s.tid (i+1) j ∧ s.tid (i+1) j = s.tid (i-1) j)
          ∧ p ∈ [(i, j), (i-1, j), (i+1, j)])
        ∨ (((2 ≤ i ∧ i ≤ 8) ∧ (2 ≤ j ∧ j ≤ 8) ∧
            s.tid i j = s.tid i (j+1) ∧ s.tid i (j+1) = s.tid i (j-1))
          ∧ p ∈ [(i, j), (i, j-1), (i, j+1)])) ∧
      (∀ i j, inGrid i j → ∃ t1, scanCellLog (s, []) i j = some (t1, s.vCalls i j ++ s.hCalls i j)
        ∧ (¬ (2 ≤ i ∧ i ≤ 8) → s.vCalls i j = [] ∧ s.hCalls i j = [])
        ∧ (¬ (2 ≤ j ∧ j ≤ 8) → s.hCalls i j = [])) := by
  have hlog := ThreeInARowLog_eq s
  have hplain := ThreeInARow_eq s
  rw [if_pos ha] at hlog
  rw [hlog, Option.map_some'] at hplain
  refine ⟨_, _, hlog, hplain, fun p => mem_allCalls s p, fun i j hij => ?_⟩
  refine ⟨_, by simpa [Scene.cellCalls] using scanCellLog_eq (s, []) hij, fun hn => ⟨?_, ?_⟩,
    fun hn => ?_⟩
  · unfold Scene.vCalls
    rw [if_neg (fun hc => hn hc.1)]
  · unfold Scene.hCalls
    rw [if_neg (fun hc => hn hc.1)]
  · unfold Scene.hCalls
    rw [if_neg (fun hc => hn hc.2.1)]

/-- C16 at `sceneTwins` after a release, where row 4 reads `4 4 4` in columns 4 to 6. -/
theorem scan_region_witness :
    sceneTwins.released.activateThree = true ∧
    ∃ t log, ThreeInARowLog sceneTwins.released = some (t, log) ∧
      ThreeInARow sceneTwins.released = some t ∧
      (∀ p, p ∈ log ↔ ∃ i j,
        (((2 ≤ i ∧ i ≤ 8) ∧ (0 ≤ j ∧ j ≤ 9) ∧
            sceneTwins.released.tid i j = sceneTwins.released.tid (i+1) j ∧
            sceneTwins.released.tid (i+1) j = sceneTwins.released.tid (i-1) j)
          ∧ p ∈ [(i, j), (i-1, j), (i+1, j)])
        ∨ (((2 ≤ i ∧ i ≤ 8) ∧ (2 ≤ j ∧ j ≤ 8) ∧
            sceneTwins.released.tid i j = sceneTwins.released.tid i (j+1) ∧
            sceneTwins.released.tid i (j+1) = sceneTwins.released.tid i (j-1))
          ∧ p ∈ [(i, j), (i, j-1), (i, j+1)])) ∧
      (∀ i j, inGrid i j → ∃ t1, scanCellLog (sceneTwins.released, []) i j =
          some (t1, sceneTwins.released.vCalls i j ++ sceneTwins.released.hCalls i j)
        ∧ (¬ (2 ≤ i ∧ i ≤ 8) →
          sceneTwins.released.vCalls i j = [] ∧ sceneTwins.released.hCalls i j = [])
        ∧ (¬ (2 ≤ j ∧ j ≤ 8) → sceneTwins.released.hCalls i j = [])) :=
  ⟨rfl, scan_region sceneTwins.released rfl⟩

/-- C14, as stated, fails: in `sceneTwins` the flag is not raised and row 4 reads
`4 4 4` in columns 4 to 6. A press and release on `(8,8)` is an illegal swap
(`Legal(8,8,8,8)` is false), yet it raises `activateThree`, and the call of
`ThreeInARow` that follows bombs cells, among them `(4,5)`. -/
theorem illegal_release_raises_flag :
    sceneTwins.activateThree = false ∧ Legal sceneTwins 8 8 8 8 = some false ∧
    ¬ sceneTwins.bombed 4 5 ∧
    ∃ s1 s2 log, Swap (Select sceneTwins 8 8) 8 8 = some s1 ∧ s1.activateThree = true ∧
      ThreeInARowLog s1 = some (s2, log) ∧ ThreeInARow s1 = some s2 ∧
      (4, 5) ∈ log ∧ s2.bombed 4 5 := by
  have h1 : (Swap (Select sceneTwins 8 8) 8 8).map
      (fun s1 => decide (s1.activateThree = true)) = some true := by
    decide
  obtain ⟨s1, e1, p1⟩ := Option.map_eq_some'.mp h1
  have h2 : ((Swap (Select sceneTwins 8 8) 8 8).bind ThreeInARowLog).map
      (fun r => decide ((4, 5) ∈ r.2 ∧ r.1.bombed 4 5)) = some true := by
    decide
  rw [e1, Option.some_bind] at h2
  obtain ⟨⟨s2, log⟩, e2, p2⟩ := Option.map_eq_some'.mp h2
  have q2 := of_decide_eq_true p2
  have e3 : ThreeInARow s1 = some s2 := by rw [ThreeInARow_eq, e2]; rfl
  exact ⟨rfl, by decide, by decide, s1, s2, log, e1, of_decide_eq_true p1, e2, e3, q2.1, q2.2⟩

/-- C14, amended: every release `Swap(u,v)` with in-range coordinates raises
`activateThree`, whether `Legal` returns true or false, and so does `Bomb`; while the
flag is not raised, a call of `ThreeInARow` calls `Bomb` on no cell and leaves the
scene as it is. -/
theorem release_raises_flag (s : Scene) (x y u v : Int) (hx : inGrid x y) (hu : inGrid u v) :
    (∃ t ok, Swap (Select s x y) u v = some t ∧ Legal s x y u v = some ok
      ∧ t.activateThree = true) ∧
    (∃ t, Bomb s u v = some t ∧ t.activateThree = true) ∧
    (s.activateThree = false → ThreeInARowLog s = some (s, []) ∧ ThreeInARow s = some s) := by
  obtain ⟨t, ok, h1, h2, -, -, h3, -⟩ := Swap_cases s hx hu
  refine ⟨⟨t, ok, h1, h2, h3⟩, ⟨_, Bomb_bombAt s hu, rfl⟩, fun hf => ?_⟩
  have hlog := ThreeInARowLog_eq s
  rw [if_neg (by rw [hf]; decide)] at hlog
  exact ⟨hlog, by rw [ThreeInARow_eq, hlog]; rfl⟩

/-- C14, amended, at `sceneTwins`: press and release on `(8,8)`. -/
theorem release_raises_flag_witness :
    (inGrid 8 8 ∧ Legal sceneTwins 8 8 8 8 = some false) ∧
    (∃ t ok, Swap (Select sceneTwins 8 8) 8 8 = some t ∧ Legal sceneTwins 8 8 8 8 = some ok
      ∧ t.activateThree = true) ∧
    (∃ t, Bomb sceneTwins 8 8 = some t ∧ t.activateThree = true) ∧
    (sceneTwins.activateThree = false →
      ThreeInARowLog sceneTwins = some (sceneTwins, []) ∧ ThreeInARow sceneTwins = some sceneTwins) :=
  ⟨⟨by decide, by decide⟩, release_raises_flag sceneTwins 8 8 8 8 (by decide) (by decide)⟩

/-! ## No gem is removed or retyped -/

theorem typeIds_congr {s t : Scene} (h : ∀ i j, t.tid i j = s.tid i j) :
    t.typeIds = s.typeIds := by
  unfold Scene.typeIds
  simp only [h]

/-- The exchange step permutes the type ids of the slots. -/
theorem typeIds_exchange (s t : Scene) {u v x y : Int} (hu : inGrid u v) (hx : inGrid x y)
    (h : exchange s u v x y = some t) : t.typeIds = s.typeIds := by
  have htid := exchange_tid s t hu hx h
  unfold inGrid at hu hx
  let X : Fin 10 × Fin 10 := (⟨x.toNat, by omega⟩, ⟨y.toNat, by omega⟩)
  let U : Fin 10 × Fin 10 := (⟨u.toNat, by omega⟩, ⟨v.toNat, by omega⟩)
  have key : ∀ p : Fin 10 × Fin 10,
      t.tid ((p.1.val : Nat) : Int) ((p.2.val : Nat) : Int) =
        (fun q : Fin 10 × Fin 10 => s.tid ((q.1.val : Nat) : Int) ((q.2.val : Nat) : Int))
          (Equiv.swap X U p) := by
    intro p
    have hX : (((p.1.val : Nat) : Int) = x ∧ ((p.2.val : Nat) : Int) = y) ↔ p = X := by
      constructor
      · rintro ⟨h1, h2⟩
        apply Prod.ext <;> apply Fin.ext <;> simp only [X] <;> omega
      · rintro rfl
        simp only [X]
        constructor <;> omega
    have hU : (((p.1.val : Nat) : Int) = u ∧ ((p.2.val : Nat) : Int) = v) ↔ p = U := by
      constructor
      · rintro ⟨h1, h2⟩
        apply Prod.ext <;> apply Fin.ext <;> simp only [U] <;> omega
      · rintro rfl
        simp only [U]
        constructor <;> omega
    have eX : s.tid x y = s.tid ((X.1.val : Nat) : Int) ((X.2.val : Nat) : Int) := by
      simp only [X]
      rw [Int.toNat_of_nonneg hx.1, Int.toNat_of_nonneg hx.2.2.1]
    have eU : s.tid u v = s.tid ((U.1.val : Nat) : Int) ((U.2.val : Nat) : Int) := by
      simp only [U]
      rw [Int.toNat_of_nonneg hu.1, Int.toNat_of_nonneg hu.2.2.1]
    rw [htid]
    by_cases h1 : p = X
    · rw [if_pos (hX.mpr h1), h1, Equiv.swap_apply_left]
      exact eU
    · rw [if_neg (fun e => h1 (hX.mp e))]
      by_cases h2 : p = U
      · rw [if_pos (hU.mpr h2), h2, Equiv.swap_apply_right]
        exact eX
      · rw [if_neg (fun e => h2 (hU.mp e)), Equiv.swap_apply_of_ne_of_ne h1 h2]
  unfold Scene.typeIds
  rw [Multiset.map_congr rfl (fun p _ => key p)]
  have hm := Multiset.map_map
    (fun q : Fin 10 × Fin 10 => s.tid ((q.1.val : Nat) : Int) ((q.2.val : Nat) : Int))
    (Equiv.swap X U) Finset.univ.val
  rw [Multiset.map_univ_val_equiv] at hm
  exact hm.symm

theorem ThreeInARow_bombsFrom (s : Scene) : ∃ t, ThreeInARow s = some t ∧ s.bombsFrom t := by
  by_cases ha : s.activateThree = true
  · obtain ⟨t, e, f, -⟩ := ThreeInARow_spec s ha
    exact ⟨t, e, f⟩
  · exact ⟨s, by simp [ThreeInARow, ha], bombsFrom_refl s⟩

theorem QuakeBye_bombsFrom (s : Scene) (q : Bool) (r1 r2 r3 : Nat) :
    ∃ t, QuakeBye s q r1 r2 r3 = some t ∧ s.bombsFrom t := by
  unfold QuakeBye
  by_cases hq : q = true
  · by_cases hr : r3 % 1000 = 1
    · have hin : inGrid ((r1 % 10 : Nat) : Int) ((r2 % 10 : Nat) : Int) := by
        unfold inGrid
        omega
      obtain ⟨t, e, f, -⟩ := Bomb_spec s hin
      exact ⟨t, by simpa [hq, hr] using e, f⟩
    · exact ⟨s, by simp [hq, hr], bombsFrom_refl s⟩
  · exact ⟨s, by simp [hq], bombsFrom_refl s⟩

theorem settled_of_bombsFrom {s t : Scene} {T : Multiset Int} (hs : s.settled T)
    (h : s.bombsFrom t) : t.settled T := by
  obtain ⟨h1, h2, h3⟩ := hs
  refine ⟨by rw [h.2.1, h.2.2.1]; exact h1, fun i j hij => by rw [h.1]; exact h2 i j hij, ?_⟩
  rw [← h3]
  exact typeIds_congr (bombsFrom_tid h)

theorem Initialize_settled (rand : Nat → Nat) :
    (Initialize rand).settled (Initialize rand).typeIds := by
  refine ⟨(by decide : inGrid 0 0), fun i j hij => ?_, rfl⟩
  unfold inGrid at hij
  simp only [Initialize]
  omega

theorem Swap_settled {s : Scene} {T : Multiset Int} (hs : s.settled T) {u v : Int}
    (hu : inGrid u v) : ∃ t, Swap s u v = some t ∧ t.settled T := by
  obtain ⟨hx, hg, hT⟩ := hs
  have e0 : Swap s u v = Swap (Select s s.x s.y) u v := rfl
  rw [e0, Swap_eq s hu hx, Legal_of_inGrid s hx hu, Option.some_bind]
  cases (blocks s.x s.y u v).any s.hit
  · exact ⟨s.released, rfl, (by decide : inGrid 0 0), hg, hT⟩
  · obtain ⟨e, he, heg, -⟩ := exchange_spec s hu hx
    refine ⟨e.released, by rw [if_pos rfl, he]; rfl, (by decide : inGrid 0 0),
      fun i j hij => ?_, ?_⟩
    · show e.grid i j < 100
      rw [heg]
      split
      · exact hg u v hu
      · split
        · exact hg _ _ hx
        · exact hg i j hij
    · rw [← hT]
      exact typeIds_exchange s e hu hx he

theorem run_settled {s : Scene} {T : Multiset Int} (hs : s.settled T) (o : Op)
    (ho : o.inRange) : ∃ t, o.run s = some t ∧ t.settled T := by
  cases o with
  | select u v => exact ⟨Select s u v, rfl, ho, hs.2.1, hs.2.2⟩
  | swap u v => exact Swap_settled hs ho
  | bomb u v =>
    obtain ⟨t, e, f, -⟩ := Bomb_spec s (u := u) (v := v) ho
    exact ⟨t, e, settled_of_bombsFrom hs f⟩
  | quakeBye q r1 r2 r3 =>
    obtain ⟨t, e, f⟩ := QuakeBye_bombsFrom s q r1 r2 r3
    exact ⟨t, e, settled_of_bombsFrom hs f⟩
  | threeInARow =>
    obtain ⟨t, e, f⟩ := ThreeInARow_bombsFrom s
    exact ⟨t, e, settled_of_bombsFrom hs f⟩

theorem runOps_settled (ops : List Op) (hops : ∀ o ∈ ops, o.inRange) {s : Scene}
    {T : Multiset Int} (hs : s.settled T) : ∃ t, runOps s ops = some t ∧ t.settled T := by
  induction ops generalizing s with
  | nil => exact ⟨s, rfl, hs⟩
  | cons o ops ih =>
    obtain ⟨s1, e1, h1⟩ := run_settled hs o (hops o (List.mem_cons_self _ _))
    obtain ⟨t, e2, h2⟩ := ih (fun o' ho' => hops o' (List.mem_cons_of_mem _ ho')) h1
    refine ⟨t, ?_, h2⟩
    unfold runOps at e2 ⊢
    rw [List.foldlM_cons, e1]
    exact e2

/-- C12: from `Initialize` on, every sequence of `Select`, `Swap`, `Bomb`, `QuakeBye`
and `ThreeInARow` with in-range coordinates succeeds and leaves every slot of the grid
occupied by one of the objects allocated by `Initialize`, with the same multiset of
type ids over the hundred slots; and on any scene `Bomb` and `ThreeInARow` succeed and
change the type id of no slot. -/
theorem gems_preserved (rand : Nat → Nat) (ops : List Op) (hops : ∀ o ∈ ops, o.inRange) :
    (∃ t, runOps (Initialize rand) ops = some t ∧
      (∀ i j, inGrid i j → ∃ p o, t.slot i j = some p ∧ p < 100 ∧ t.obj i j = some o) ∧
      t.typeIds = (Initialize rand).typeIds) ∧
    (∀ (s : Scene) (u v : Int), inGrid u v →
      ∃ t, Bomb s u v = some t ∧ ∀ i j, t.getID i j = s.getID i j) ∧
    (∀ s : Scene, ∃ t, ThreeInARow s = some t ∧ ∀ i j, t.getID i j = s.getID i j) := by
  refine ⟨?_, fun s u v hu => ?_, fun s => ?_⟩
  · obtain ⟨t, e, -, hg, hT⟩ := runOps_settled ops hops (Initialize_settled rand)
    exact ⟨t, e, fun i j hij => ⟨t.grid i j, t.heap (t.grid i j), slot_of_inGrid t hij,
      hg i j hij, obj_of_inGrid t hij⟩, hT⟩
  · obtain ⟨t, e, f, -⟩ := Bomb_spec s hu
    exact ⟨t, e, bombsFrom_getID f⟩
  · obtain ⟨t, e, f⟩ := ThreeInARow_bombsFrom s
    exact ⟨t, e, bombsFrom_getID f⟩

/-- C12 at the scene of `sceneScenario`: a press on `(4,4)`, a release on `(4,5)`, the
scan, a manual bomb and a quake draw. -/
theorem gems_preserved_witness :
    (∀ o ∈ [Op.select 4 4, Op.swap 4 5, Op.threeInARow, Op.bomb 0 0, Op.quakeBye true 3 7 1],
      o.inRange) ∧
    (∃ t, runOps (Initialize (draws [(46, 2), (47, 2)]))
        [Op.select 4 4, Op.swap 4 5, Op.threeInARow, Op.bomb 0 0, Op.quakeBye true 3 7 1]
        = some t ∧
      (∀ i j, inGrid i j → ∃ p o, t.slot i j = some p ∧ p < 100 ∧ t.obj i j = some o) ∧
      t.typeIds = (Initialize (draws [(46, 2), (47, 2)])).typeIds) ∧
    (∀ (s : Scene) (u v : Int), inGrid u v →
      ∃ t, Bomb s u v = some t ∧ ∀ i j, t.getID i j = s.getID i j) ∧
    (∀ s : Scene, ∃ t, ThreeInARow s = some t ∧ ∀ i j, t.getID i j = s.getID i j) :=
  ⟨by decide, gems_preserved _ _ (by decide)⟩

end GemSwap
